import Mathlib

/-!
Verification development for the AESteve library (src/lib.rs), an AES-128
implementation.  Bytes are modelled as natural numbers; well-formedness
predicates record the u8 range invariant (value below 256).  Every definition
in the first part of this file is a direct shallow embedding of the
corresponding Rust item; comments name the source item.  Rust functions whose
lookups can panic additionally get an Option-valued variant (suffix ?) in
which a panic is modelled as none.
-/


def TABLE : List (List Nat) := [
  [
    0x00, 0x02, 0x04, 0x06, 0x08, 0x0a, 0x0c, 0x0e, 0x10, 0x12, 0x14, 0x16, 0x18, 0x1a, 0x1c, 0x1e,
    0x20, 0x22, 0x24, 0x26, 0x28, 0x2a, 0x2c, 0x2e, 0x30, 0x32, 0x34, 0x36, 0x38, 0x3a, 0x3c, 0x3e,
    0x40, 0x42, 0x44, 0x46, 0x48, 0x4a, 0x4c, 0x4e, 0x50, 0x52, 0x54, 0x56, 0x58, 0x5a, 0x5c, 0x5e,
    0x60, 0x62, 0x64, 0x66, 0x68, 0x6a, 0x6c, 0x6e, 0x70, 0x72, 0x74, 0x76, 0x78, 0x7a, 0x7c, 0x7e,
    0x80, 0x82, 0x84, 0x86, 0x88, 0x8a, 0x8c, 0x8e, 0x90, 0x92, 0x94, 0x96, 0x98, 0x9a, 0x9c, 0x9e,
    0xa0, 0xa2, 0xa4, 0xa6, 0xa8, 0xaa, 0xac, 0xae, 0xb0, 0xb2, 0xb4, 0xb6, 0xb8, 0xba, 0xbc, 0xbe,
    0xc0, 0xc2, 0xc4, 0xc6, 0xc8, 0xca, 0xcc, 0xce, 0xd0, 0xd2, 0xd4, 0xd6, 0xd8, 0xda, 0xdc, 0xde,
    0xe0, 0xe2, 0xe4, 0xe6, 0xe8, 0xea, 0xec, 0xee, 0xf0, 0xf2, 0xf4, 0xf6, 0xf8, 0xfa, 0xfc, 0xfe,
    0x1b, 0x19, 0x1f, 0x1d, 0x13, 0x11, 0x17, 0x15, 0x0b, 0x09, 0x0f, 0x0d, 0x03, 0x01, 0x07, 0x05,
    0x3b, 0x39, 0x3f, 0x3d, 0x33, 0x31, 0x37, 0x35, 0x2b, 0x29, 0x2f, 0x2d, 0x23, 0x21, 0x27, 0x25,
    0x5b, 0x59, 0x5f, 0x5d, 0x53, 0x51, 0x57, 0x55, 0x4b, 0x49, 0x4f, 0x4d, 0x43, 0x41, 0x47, 0x45,
    0x7b, 0x79, 0x7f, 0x7d, 0x73, 0x71, 0x77, 0x75, 0x6b, 0x69, 0x6f, 0x6d, 0x63, 0x61, 0x67, 0x65,
    0x9b, 0x99, 0x9f, 0x9d, 0x93, 0x91, 0x97, 0x95, 0x8b, 0x89, 0x8f, 0x8d, 0x83, 0x81, 0x87, 0x85,
    0xbb, 0xb9, 0xbf, 0xbd, 0xb3, 0xb1, 0xb7, 0xb5, 0xab, 0xa9, 0xaf, 0xad, 0xa3, 0xa1, 0xa7, 0xa5,
    0xdb, 0xd9, 0xdf, 0xdd, 0xd3, 0xd1, 0xd7, 0xd5, 0xcb, 0xc9, 0xcf, 0xcd, 0xc3, 0xc1, 0xc7, 0xc5,
    0xfb, 0xf9, 0xff, 0xfd, 0xf3, 0xf1, 0xf7, 0xf5, 0xeb, 0xe9, 0xef, 0xed, 0xe3, 0xe1, 0xe7, 0xe5
  ],
  [
    0x00, 0x03, 0x06, 0x05, 0x0c, 0x0f, 0x0a, 0x09, 0x18, 0x1b, 0x1e, 0x1d, 0x14, 0x17, 0x12, 0x11,
    0x30, 0x33, 0x36, 0x35, 0x3c, 0x3f, 0x3a, 0x39, 0x28, 0x2b, 0x2e, 0x2d, 0x24, 0x27, 0x22, 0x21,
    0x60, 0x63, 0x66, 0x65, 0x6c, 0x6f, 0x6a, 0x69, 0x78, 0x7b, 0x7e, 0x7d, 0x74, 0x77, 0x72, 0x71,
    0x50, 0x53, 0x56, 0x55, 0x5c, 0x5f, 0x5a, 0x59, 0x48, 0x4b, 0x4e, 0x4d, 0x44, 0x47, 0x42, 0x41,
    0xc0, 0xc3, 0xc6, 0xc5, 0xcc, 0xcf, 0xca, 0xc9, 0xd8, 0xdb, 0xde, 0xdd, 0xd4, 0xd7, 0xd2, 0xd1,
    0xf0, 0xf3, 0xf6, 0xf5, 0xfc, 0xff, 0xfa, 0xf9, 0xe8, 0xeb, 0xee, 0xed, 0xe4, 0xe7, 0xe2, 0xe1,
    0xa0, 0xa3, 0xa6, 0xa5, 0xac, 0xaf, 0xaa, 0xa9, 0xb8, 0xbb, 0xbe, 0xbd, 0xb4, 0xb7, 0xb2, 0xb1,
    0x90, 0x93, 0x96, 0x95, 0x9c, 0x9f, 0x9a, 0x99, 0x88, 0x8b, 0x8e, 0x8d, 0x84, 0x87, 0x82, 0x81,
    0x9b, 0x98, 0x9d, 0x9e, 0x97, 0x94, 0x91, 0x92, 0x83, 0x80, 0x85, 0x86, 0x8f, 0x8c, 0x89, 0x8a,
    0xab, 0xa8, 0xad, 0xae, 0xa7, 0xa4, 0xa1, 0xa2, 0xb3, 0xb0, 0xb5, 0xb6, 0xbf, 0xbc, 0xb9, 0xba,
    0xfb, 0xf8, 0xfd, 0xfe, 0xf7, 0xf4, 0xf1, 0xf2, 0xe3, 0xe0, 0xe5, 0xe6, 0xef, 0xec, 0xe9, 0xea,
    0xcb, 0xc8, 0xcd, 0xce, 0xc7, 0xc4, 0xc1, 0xc2, 0xd3, 0xd0, 0xd5, 0xd6, 0xdf, 0xdc, 0xd9, 0xda,
    0x5b, 0x58, 0x5d, 0x5e, 0x57, 0x54, 0x51, 0x52, 0x43, 0x40, 0x45, 0x46, 0x4f, 0x4c, 0x49, 0x4a,
    0x6b, 0x68, 0x6d, 0x6e, 0x67, 0x64, 0x61, 0x62, 0x73, 0x70, 0x75, 0x76, 0x7f, 0x7c, 0x79, 0x7a,
    0x3b, 0x38, 0x3d, 0x3e, 0x37, 0x34, 0x31, 0x32, 0x23, 0x20, 0x25, 0x26, 0x2f, 0x2c, 0x29, 0x2a,
    0x0b, 0x08, 0x0d, 0x0e, 0x07, 0x04, 0x01, 0x02, 0x13, 0x10, 0x15, 0x16, 0x1f, 0x1c, 0x19, 0x1a
  ],
  [
    0x00, 0x09, 0x12, 0x1b, 0x24, 0x2d, 0x36, 0x3f, 0x48, 0x41, 0x5a, 0x53, 0x6c, 0x65, 0x7e, 0x77,
    0x90, 0x99, 0x82, 0x8b, 0xb4, 0xbd, 0xa6, 0xaf, 0xd8, 0xd1, 0xca, 0xc3, 0xfc, 0xf5, 0xee, 0xe7,
    0x3b, 0x32, 0x29, 0x20, 0x1f, 0x16, 0x0d, 0x04, 0x73, 0x7a, 0x61, 0x68, 0x57, 0x5e, 0x45, 0x4c,
    0xab, 0xa2, 0xb9, 0xb0, 0x8f, 0x86, 0x9d, 0x94, 0xe3, 0xea, 0xf1, 0xf8, 0xc7, 0xce, 0xd5, 0xdc,
    0x76, 0x7f, 0x64, 0x6d, 0x52, 0x5b, 0x40, 0x49, 0x3e, 0x37, 0x2c, 0x25, 0x1a, 0x13, 0x08, 0x01,
    0xe6, 0xef, 0xf4, 0xfd, 0xc2, 0xcb, 0xd0, 0xd9, 0xae, 0xa7, 0xbc, 0xb5, 0x8a, 0x83, 0x98, 0x91,
    0x4d, 0x44, 0x5f, 0x56, 0x69, 0x60, 0x7b, 0x72, 0x05, 0x0c, 0x17, 0x1e, 0x21, 0x28, 0x33, 0x3a,
    0xdd, 0xd4, 0xcf, 0xc6, 0xf9, 0xf0, 0xeb, 0xe2, 0x95, 0x9c, 0x87, 0x8e, 0xb1, 0xb8, 0xa3, 0xaa,
    0xec, 0xe5, 0xfe, 0xf7, 0xc8, 0xc1, 0xda, 0xd3, 0xa4, 0xad, 0xb6, 0xbf, 0x80, 0x89, 0x92, 0x9b,
    0x7c, 0x75, 0x6e, 0x67, 0x58, 0x51, 0x4a, 0x43, 0x34, 0x3d, 0x26, 0x2f, 0x10, 0x19, 0x02, 0x0b,
    0xd7, 0xde, 0xc5, 0xcc, 0xf3, 0xfa, 0xe1, 0xe8, 0x9f, 0x96, 0x8d, 0x84, 0xbb, 0xb2, 0xa9, 0xa0,
    0x47, 0x4e, 0x55, 0x5c, 0x63, 0x6a, 0x71, 0x78, 0x0f, 0x06, 0x1d, 0x14, 0x2b, 0x22, 0x39, 0x30,
    0x9a, 0x93, 0x88, 0x81, 0xbe, 0xb7, 0xac, 0xa5, 0xd2, 0xdb, 0xc0, 0xc9, 0xf6, 0xff, 0xe4, 0xed,
    0x0a, 0x03, 0x18, 0x11, 0x2e, 0x27, 0x3c, 0x35, 0x42, 0x4b, 0x50, 0x59, 0x66, 0x6f, 0x74, 0x7d,
    0xa1, 0xa8, 0xb3, 0xba, 0x85, 0x8c, 0x97, 0x9e, 0xe9, 0xe0, 0xfb, 0xf2, 0xcd, 0xc4, 0xdf, 0xd6,
    0x31, 0x38, 0x23, 0x2a, 0x15, 0x1c, 0x07, 0x0e, 0x79, 0x70, 0x6b, 0x62, 0x5d, 0x54, 0x4f, 0x46
  ],
  [
    0x00, 0x0b, 0x16, 0x1d, 0x2c, 0x27, 0x3a, 0x31, 0x58, 0x53, 0x4e, 0x45, 0x74, 0x7f, 0x62, 0x69,
    0xb0, 0xbb, 0xa6, 0xad, 0x9c, 0x97, 0x8a, 0x81, 0xe8, 0xe3, 0xfe, 0xf5, 0xc4, 0xcf, 0xd2, 0xd9,
    0x7b, 0x70, 0x6d, 0x66, 0x57, 0x5c, 0x41, 0x4a, 0x23, 0x28, 0x35, 0x3e, 0x0f, 0x04, 0x19, 0x12,
    0xcb, 0xc0, 0xdd, 0xd6, 0xe7, 0xec, 0xf1, 0xfa, 0x93, 0x98, 0x85, 0x8e, 0xbf, 0xb4, 0xa9, 0xa2,
    0xf6, 0xfd, 0xe0, 0xeb, 0xda, 0xd1, 0xcc, 0xc7, 0xae, 0xa5, 0xb8, 0xb3, 0x82, 0x89, 0x94, 0x9f,
    0x46, 0x4d, 0x50, 0x5b, 0x6a, 0x61, 0x7c, 0x77, 0x1e, 0x15, 0x08, 0x03, 0x32, 0x39, 0x24, 0x2f,
    0x8d, 0x86, 0x9b, 0x90, 0xa1, 0xaa, 0xb7, 0xbc, 0xd5, 0xde, 0xc3, 0xc8, 0xf9, 0xf2, 0xef, 0xe4,
    0x3d, 0x36, 0x2b, 0x20, 0x11, 0x1a, 0x07, 0x0c, 0x65, 0x6e, 0x73, 0x78, 0x49, 0x42, 0x5f, 0x54,
    0xf7, 0xfc, 0xe1, 0xea, 0xdb, 0xd0, 0xcd, 0xc6, 0xaf, 0xa4, 0xb9, 0xb2, 0x83, 0x88, 0x95, 0x9e,
    0x47, 0x4c, 0x51, 0x5a, 0x6b, 0x60, 0x7d, 0x76, 0x1f, 0x14, 0x09, 0x02, 0x33, 0x38, 0x25, 0x2e,
    0x8c, 0x87, 0x9a, 0x91, 0xa0, 0xab, 0xb6, 0xbd, 0xd4, 0xdf, 0xc2, 0xc9, 0xf8, 0xf3, 0xee, 0xe5,
    0x3c, 0x37, 0x2a, 0x21, 0x10, 0x1b, 0x06, 0x0d, 0x64, 0x6f, 0x72, 0x79, 0x48, 0x43, 0x5e, 0x55,
    0x01, 0x0a, 0x17, 0x1c, 0x2d, 0x26, 0x3b, 0x30, 0x59, 0x52, 0x4f, 0x44, 0x75, 0x7e, 0x63, 0x68,
    0xb1, 0xba, 0xa7, 0xac, 0x9d, 0x96, 0x8b, 0x80, 0xe9, 0xe2, 0xff, 0xf4, 0xc5, 0xce, 0xd3, 0xd8,
    0x7a, 0x71, 0x6c, 0x67, 0x56, 0x5d, 0x40, 0x4b, 0x22, 0x29, 0x34, 0x3f, 0x0e, 0x05, 0x18, 0x13,
    0xca, 0xc1, 0xdc, 0xd7, 0xe6, 0xed, 0xf0, 0xfb, 0x92, 0x99, 0x84, 0x8f, 0xbe, 0xb5, 0xa8, 0xa3
  ],
  [
    0x00, 0x0d, 0x1a, 0x17, 0x34, 0x39, 0x2e, 0x23, 0x68, 0x65, 0x72, 0x7f, 0x5c, 0x51, 0x46, 0x4b,
    0xd0, 0xdd, 0xca, 0xc7, 0xe4, 0xe9, 0xfe, 0xf3, 0xb8, 0xb5, 0xa2, 0xaf, 0x8c, 0x81, 0x96, 0x9b,
    0xbb, 0xb6, 0xa1, 0xac, 0x8f, 0x82, 0x95, 0x98, 0xd3, 0xde, 0xc9, 0xc4, 0xe7, 0xea, 0xfd, 0xf0,
    0x6b, 0x66, 0x71, 0x7c, 0x5f, 0x52, 0x45, 0x48, 0x03, 0x0e, 0x19, 0x14, 0x37, 0x3a, 0x2d, 0x20,
    0x6d, 0x60, 0x77, 0x7a, 0x59, 0x54, 0x43, 0x4e, 0x05, 0x08, 0x1f, 0x12, 0x31, 0x3c, 0x2b, 0x26,
    0xbd, 0xb0, 0xa7, 0xaa, 0x89, 0x84, 0x93, 0x9e, 0xd5, 0xd8, 0xcf, 0xc2, 0xe1, 0xec, 0xfb, 0xf6,
    0xd6, 0xdb, 0xcc, 0xc1, 0xe2, 0xef, 0xf8, 0xf5, 0xbe, 0xb3, 0xa4, 0xa9, 0x8a, 0x87, 0x90, 0x9d,
    0x06, 0x0b, 0x1c, 0x11, 0x32, 0x3f, 0x28, 0x25, 0x6e, 0x63, 0x74, 0x79, 0x5a, 0x57, 0x40, 0x4d,
    0xda, 0xd7, 0xc0, 0xcd, 0xee, 0xe3, 0xf4, 0xf9, 0xb2, 0xbf, 0xa8, 0xa5, 0x86, 0x8b, 0x9c, 0x91,
    0x0a, 0x07, 0x10, 0x1d, 0x3e, 0x33, 0x24, 0x29, 0x62, 0x6f, 0x78, 0x75, 0x56, 0x5b, 0x4c, 0x41,
    0x61, 0x6c, 0x7b, 0x76, 0x55, 0x58, 0x4f, 0x42, 0x09, 0x04, 0x13, 0x1e, 0x3d, 0x30, 0x27, 0x2a,
    0xb1, 0xbc, 0xab, 0xa6, 0x85, 0x88, 0x9f, 0x92, 0xd9, 0xd4, 0xc3, 0xce, 0xed, 0xe0, 0xf7, 0xfa,
    0xb7, 0xba, 0xad, 0xa0, 0x83, 0x8e, 0x99, 0x94, 0xdf, 0xd2, 0xc5, 0xc8, 0xeb, 0xe6, 0xf1, 0xfc,
    0x67, 0x6a, 0x7d, 0x70, 0x53, 0x5e, 0x49, 0x44, 0x0f, 0x02, 0x15, 0x18, 0x3b, 0x36, 0x21, 0x2c,
    0x0c, 0x01, 0x16, 0x1b, 0x38, 0x35, 0x22, 0x2f, 0x64, 0x69, 0x7e, 0x73, 0x50, 0x5d, 0x4a, 0x47,
    0xdc, 0xd1, 0xc6, 0xcb, 0xe8, 0xe5, 0xf2, 0xff, 0xb4, 0xb9, 0xae, 0xa3, 0x80, 0x8d, 0x9a, 0x97
  ],
  [
    0x00, 0x0e, 0x1c, 0x12, 0x38, 0x36, 0x24, 0x2a, 0x70, 0x7e, 0x6c, 0x62, 0x48, 0x46, 0x54, 0x5a,
    0xe0, 0xee, 0xfc, 0xf2, 0xd8, 0xd6, 0xc4, 0xca, 0x90, 0x9e, 0x8c, 0x82, 0xa8, 0xa6, 0xb4, 0xba,
    0xdb, 0xd5, 0xc7, 0xc9, 0xe3, 0xed, 0xff, 0xf1, 0xab, 0xa5, 0xb7, 0xb9, 0x93, 0x9d, 0x8f, 0x81,
    0x3b, 0x35, 0x27, 0x29, 0x03, 0x0d, 0x1f, 0x11, 0x4b, 0x45, 0x57, 0x59, 0x73, 0x7d, 0x6f, 0x61,
    0xad, 0xa3, 0xb1, 0xbf, 0x95, 0x9b, 0x89, 0x87, 0xdd, 0xd3, 0xc1, 0xcf, 0xe5, 0xeb, 0xf9, 0xf7,
    0x4d, 0x43, 0x51, 0x5f, 0x75, 0x7b, 0x69, 0x67, 0x3d, 0x33, 0x21, 0x2f, 0x05, 0x0b, 0x19, 0x17,
    0x76, 0x78, 0x6a, 0x64, 0x4e, 0x40, 0x52, 0x5c, 0x06, 0x08, 0x1a, 0x14, 0x3e, 0x30, 0x22, 0x2c,
    0x96, 0x98, 0x8a, 0x84, 0xae, 0xa0, 0xb2, 0xbc, 0xe6, 0xe8, 0xfa, 0xf4, 0xde, 0xd0, 0xc2, 0xcc,
    0x41, 0x4f, 0x5d, 0x53, 0x79, 0x77, 0x65, 0x6b, 0x31, 0x3f, 0x2d, 0x23, 0x09, 0x07, 0x15, 0x1b,
    0xa1, 0xaf, 0xbd, 0xb3, 0x99, 0x97, 0x85, 0x8b, 0xd1, 0xdf, 0xcd, 0xc3, 0xe9, 0xe7, 0xf5, 0xfb,
    0x9a, 0x94, 0x86, 0x88, 0xa2, 0xac, 0xbe, 0xb0, 0xea, 0xe4, 0xf6, 0xf8, 0xd2, 0xdc, 0xce, 0xc0,
    0x7a, 0x74, 0x66, 0x68, 0x42, 0x4c, 0x5e, 0x50, 0x0a, 0x04, 0x16, 0x18, 0x32, 0x3c, 0x2e, 0x20,
    0xec, 0xe2, 0xf0, 0xfe, 0xd4, 0xda, 0xc8, 0xc6, 0x9c, 0x92, 0x80, 0x8e, 0xa4, 0xaa, 0xb8, 0xb6,
    0x0c, 0x02, 0x10, 0x1e, 0x34, 0x3a, 0x28, 0x26, 0x7c, 0x72, 0x60, 0x6e, 0x44, 0x4a, 0x58, 0x56,
    0x37, 0x39, 0x2b, 0x25, 0x0f, 0x01, 0x13, 0x1d, 0x47, 0x49, 0x5b, 0x55, 0x7f, 0x71, 0x63, 0x6d,
    0xd7, 0xd9, 0xcb, 0xc5, 0xef, 0xe1, 0xf3, 0xfd, 0xa7, 0xa9, 0xbb, 0xb5, 0x9f, 0x91, 0x83, 0x8d
  ]
]

def AES_SBOX : List (List Nat) := [
  [0x63, 0x7c, 0x77, 0x7b, 0xf2, 0x6b, 0x6f, 0xc5, 0x30, 0x01, 0x67, 0x2b, 0xfe, 0xd7, 0xab, 0x76],
  [0xca, 0x82, 0xc9, 0x7d, 0xfa, 0x59, 0x47, 0xf0, 0xad, 0xd4, 0xa2, 0xaf, 0x9c, 0xa4, 0x72, 0xc0],
  [0xb7, 0xfd, 0x93, 0x26, 0x36, 0x3f, 0xf7, 0xcc, 0x34, 0xa5, 0xe5, 0xf1, 0x71, 0xd8, 0x31, 0x15],
  [0x04, 0xc7, 0x23, 0xc3, 0x18, 0x96, 0x05, 0x9a, 0x07, 0x12, 0x80, 0xe2, 0xeb, 0x27, 0xb2, 0x75],
  [0x09, 0x83, 0x2c, 0x1a, 0x1b, 0x6e, 0x5a, 0xa0, 0x52, 0x3b, 0xd6, 0xb3, 0x29, 0xe3, 0x2f, 0x84],
  [0x53, 0xd1, 0x00, 0xed, 0x20, 0xfc, 0xb1, 0x5b, 0x6a, 0xcb, 0xbe, 0x39, 0x4a, 0x4c, 0x58, 0xcf],
  [0xd0, 0xef, 0xaa, 0xfb, 0x43, 0x4d, 0x33, 0x85, 0x45, 0xf9, 0x02, 0x7f, 0x50, 0x3c, 0x9f, 0xa8],
  [0x51, 0xa3, 0x40, 0x8f, 0x92, 0x9d, 0x38, 0xf5, 0xbc, 0xb6, 0xda, 0x21, 0x10, 0xff, 0xf3, 0xd2],
  [0xcd, 0x0c, 0x13, 0xec, 0x5f, 0x97, 0x44, 0x17, 0xc4, 0xa7, 0x7e, 0x3d, 0x64, 0x5d, 0x19, 0x73],
  [0x60, 0x81, 0x4f, 0xdc, 0x22, 0x2a, 0x90, 0x88, 0x46, 0xee, 0xb8, 0x14, 0xde, 0x5e, 0x0b, 0xdb],
  [0xe0, 0x32, 0x3a, 0x0a, 0x49, 0x06, 0x24, 0x5c, 0xc2, 0xd3, 0xac, 0x62, 0x91, 0x95, 0xe4, 0x79],
  [0xe7, 0xc8, 0x37, 0x6d, 0x8d, 0xd5, 0x4e, 0xa9, 0x6c, 0x56, 0xf4, 0xea, 0x65, 0x7a, 0xae, 0x08],
  [0xba, 0x78, 0x25, 0x2e, 0x1c, 0xa6, 0xb4, 0xc6, 0xe8, 0xdd, 0x74, 0x1f, 0x4b, 0xbd, 0x8b, 0x8a],
  [0x70, 0x3e, 0xb5, 0x66, 0x48, 0x03, 0xf6, 0x0e, 0x61, 0x35, 0x57, 0xb9, 0x86, 0xc1, 0x1d, 0x9e],
  [0xe1, 0xf8, 0x98, 0x11, 0x69, 0xd9, 0x8e, 0x94, 0x9b, 0x1e, 0x87, 0xe9, 0xce, 0x55, 0x28, 0xdf],
  [0x8c, 0xa1, 0x89, 0x0d, 0xbf, 0xe6, 0x42, 0x68, 0x41, 0x99, 0x2d, 0x0f, 0xb0, 0x54, 0xbb, 0x16]
]

def REVERSE_AES_SBOX : List (List Nat) := [
  [0x52, 0x09, 0x6a, 0xd5, 0x30, 0x36, 0xa5, 0x38, 0xbf, 0x40, 0xa3, 0x9e, 0x81, 0xf3, 0xd7, 0xfb],
  [0x7c, 0xe3, 0x39, 0x82, 0x9b, 0x2f, 0xff, 0x87, 0x34, 0x8e, 0x43, 0x44, 0xc4, 0xde, 0xe9, 0xcb],
  [0x54, 0x7b, 0x94, 0x32, 0xa6, 0xc2, 0x23, 0x3d, 0xee, 0x4c, 0x95, 0x0b, 0x42, 0xfa, 0xc3, 0x4e],
  [0x08, 0x2e, 0xa1, 0x66, 0x28, 0xd9, 0x24, 0xb2, 0x76, 0x5b, 0xa2, 0x49, 0x6d, 0x8b, 0xd1, 0x25],
  [0x72, 0xf8, 0xf6, 0x64, 0x86, 0x68, 0x98, 0x16, 0xd4, 0xa4, 0x5c, 0xcc, 0x5d, 0x65, 0xb6, 0x92],
  [0x6c, 0x70, 0x48, 0x50, 0xfd, 0xed, 0xb9, 0xda, 0x5e, 0x15, 0x46, 0x57, 0xa7, 0x8d, 0x9d, 0x84],
  [0x90, 0xd8, 0xab, 0x00, 0x8c, 0xbc, 0xd3, 0x0a, 0xf7, 0xe4, 0x58, 0x05, 0xb8, 0xb3, 0x45, 0x06],
  [0xd0, 0x2c, 0x1e, 0x8f, 0xca, 0x3f, 0x0f, 0x02, 0xc1, 0xaf, 0xbd, 0x03, 0x01, 0x13, 0x8a, 0x6b],
  [0x3a, 0x91, 0x11, 0x41, 0x4f, 0x67, 0xdc, 0xea, 0x97, 0xf2, 0xcf, 0xce, 0xf0, 0xb4, 0xe6, 0x73],
  [0x96, 0xac, 0x74, 0x22, 0xe7, 0xad, 0x35, 0x85, 0xe2, 0xf9, 0x37, 0xe8, 0x1c, 0x75, 0xdf, 0x6e],
  [0x47, 0xf1, 0x1a, 0x71, 0x1d, 0x29, 0xc5, 0x89, 0x6f, 0xb7, 0x62, 0x0e, 0xaa, 0x18, 0xbe, 0x1b],
  [0xfc, 0x56, 0x3e, 0x4b, 0xc6, 0xd2, 0x79, 0x20, 0x9a, 0xdb, 0xc0, 0xfe, 0x78, 0xcd, 0x5a, 0xf4],
  [0x1f, 0xdd, 0xa8, 0x33, 0x88, 0x07, 0xc7, 0x31, 0xb1, 0x12, 0x10, 0x59, 0x27, 0x80, 0xec, 0x5f],
  [0x60, 0x51, 0x7f, 0xa9, 0x19, 0xb5, 0x4a, 0x0d, 0x2d, 0xe5, 0x7a, 0x9f, 0x93, 0xc9, 0x9c, 0xef],
  [0xa0, 0xe0, 0x3b, 0x4d, 0xae, 0x2a, 0xf5, 0xb0, 0xc8, 0xeb, 0xbb, 0x3c, 0x83, 0x53, 0x99, 0x61],
  [0x17, 0x2b, 0x04, 0x7e, 0xba, 0x77, 0xd6, 0x26, 0xe1, 0x69, 0x14, 0x63, 0x55, 0x21, 0x0c, 0x7d]
]

def RC : List Nat := [0x01, 0x02, 0x04, 0x08, 0x10, 0x20, 0x40, 0x80, 0x1b, 0x36, 0x6c, 0xdb, 0xab, 0x4d, 0x9a, 0x2f, 0x5e, 0xbc, 0x63, 0xc6, 0x97, 0x35]
/-- Embedding of static MIX_MATRIX (src/lib.rs lines 170-174). -/
def MIX_MATRIX : Fin 4 → Fin 4 → Nat :=
  ![![2, 3, 1, 1],
    ![1, 2, 3, 1],
    ![1, 1, 2, 3],
    ![3, 1, 1, 2]]

/-- Embedding of static INV_MIX_MATRIX (src/lib.rs lines 176-180). -/
def INV_MIX_MATRIX : Fin 4 → Fin 4 → Nat :=
  ![![0x0e, 0x0b, 0x0d, 0x09],
    ![0x09, 0x0e, 0x0b, 0x0d],
    ![0x0d, 0x09, 0x0e, 0x0b],
    ![0x0b, 0x0d, 0x09, 0x0e]]

/-- Embedding of fn lookup (src/lib.rs lines 185-193): forward S-box access at
row byte>>4, column byte&15.  The total version returns 0 where the Rust code
would panic (an out-of-range row, impossible for byte values below 256). -/
def lookup (byte : Nat) : Nat :=
  (AES_SBOX.getD (byte >>> 4) []).getD (byte &&& 15) 0

/-- Option-valued variant of fn lookup: none exactly where the Rust code
panics. -/
def lookup? (byte : Nat) : Option Nat :=
  match AES_SBOX[byte >>> 4]? with
  | some row => row[byte &&& 15]?
  | none => none

/-- Embedding of fn reverse_lookup (src/lib.rs lines 196-204). -/
def reverse_lookup (byte : Nat) : Nat :=
  (REVERSE_AES_SBOX.getD (byte >>> 4) []).getD (byte &&& 15) 0

/-- Option-valued variant of fn reverse_lookup. -/
def reverse_lookup? (byte : Nat) : Option Nat :=
  match REVERSE_AES_SBOX[byte >>> 4]? with
  | some row => row[byte &&& 15]?
  | none => none

/-- Embedding of fn round_constant (src/lib.rs lines 205-207); the total
version returns 0 where the Rust code would panic (round at least 22). -/
def round_constant (round : Nat) : Nat := RC.getD round 0

/-- Option-valued variant of fn round_constant. -/
def round_constant? (round : Nat) : Option Nat := RC[round]?

/-- Embedding of fn table_index (src/lib.rs lines 209-219); the total version
returns the out-of-range index 6 where the Rust code panics. -/
def table_index (n : Nat) : Nat :=
  match n with
  | 2 => 0
  | 3 => 1
  | 9 => 2
  | 11 => 3
  | 13 => 4
  | 14 => 5
  | _ => 6

/-- Option-valued variant of fn table_index: none exactly on the panic arm. -/
def table_index? (n : Nat) : Option Nat :=
  match n with
  | 2 => some 0
  | 3 => some 1
  | 9 => some 2
  | 11 => some 3
  | 13 => some 4
  | 14 => some 5
  | _ => none

/-- Embedding of fn gmul (src/lib.rs lines 220-237): multiplication by 1 is
the identity with no table access; otherwise the row selected by table_index
is consulted at column m.  The total version returns 0 on the panic arms. -/
def gmul (n m : Nat) : Nat :=
  match n with
  | 1 => m
  | _ => (TABLE.getD (table_index n) []).getD m 0

/-- Option-valued variant of fn gmul: none exactly where the Rust code
panics. -/
def gmul? (n m : Nat) : Option Nat :=
  match n with
  | 1 => some m
  | _ =>
    match table_index? n with
    | some index =>
      match TABLE[index]? with
      | some row => row[m]?
      | none => none
    | none => none

/-- One column of the AES state: embedding of the Rust array type [u8; 4]. -/
structure W4 where
  b0 : Nat
  b1 : Nat
  b2 : Nat
  b3 : Nat
deriving DecidableEq

/-- The AES state / round key: embedding of the Rust array type [[u8; 4]; 4].
Field ci is the Rust row block[i], which holds plaintext bytes 4i..4i+3 in
make_blocks order, i.e. the AES column i. -/
structure Blk where
  c0 : W4
  c1 : W4
  c2 : W4
  c3 : W4
deriving DecidableEq

/-- Byte-wise XOR of two columns (the repeated pattern key[c][r] ^ block[c][r]
of the Rust source). -/
def xorW (a b : W4) : W4 :=
  ⟨a.b0 ^^^ b.b0, a.b1 ^^^ b.b1, a.b2 ^^^ b.b2, a.b3 ^^^ b.b3⟩

/-- Embedding of fn add_round_key (src/lib.rs lines 322-330). -/
def add_round_key (key block : Blk) : Blk :=
  ⟨xorW key.c0 block.c0, xorW key.c1 block.c1, xorW key.c2 block.c2, xorW key.c3 block.c3⟩

/-- Forward substitution applied to each byte of one column. -/
def subW (w : W4) : W4 := ⟨lookup w.b0, lookup w.b1, lookup w.b2, lookup w.b3⟩

/-- Embedding of fn sub_bytes (src/lib.rs lines 332-340). -/
def sub_bytes (block : Blk) : Blk :=
  ⟨subW block.c0, subW block.c1, subW block.c2, subW block.c3⟩

/-- Inverse substitution applied to each byte of one column. -/
def rsubW (w : W4) : W4 :=
  ⟨reverse_lookup w.b0, reverse_lookup w.b1, reverse_lookup w.b2, reverse_lookup w.b3⟩

/-- Embedding of fn inv_sub_bytes (src/lib.rs lines 342-350). -/
def inv_sub_bytes (block : Blk) : Blk :=
  ⟨rsubW block.c0, rsubW block.c1, rsubW block.c2, rsubW block.c3⟩

/-- Embedding of fn shift_rows (src/lib.rs lines 352-361):
new[i][j] = block[(i+j) mod 4][j], the loop unrolled. -/
def shift_rows (block : Blk) : Blk :=
  ⟨⟨block.c0.b0, block.c1.b1, block.c2.b2, block.c3.b3⟩,
   ⟨block.c1.b0, block.c2.b1, block.c3.b2, block.c0.b3⟩,
   ⟨block.c2.b0, block.c3.b1, block.c0.b2, block.c1.b3⟩,
   ⟨block.c3.b0, block.c0.b1, block.c1.b2, block.c2.b3⟩⟩

/-- Embedding of fn inv_shift_rows (src/lib.rs lines 363-372):
new[i][j] = block[(i+4-j) mod 4][j], the loop unrolled. -/
def inv_shift_rows (block : Blk) : Blk :=
  ⟨⟨block.c0.b0, block.c3.b1, block.c2.b2, block.c1.b3⟩,
   ⟨block.c1.b0, block.c0.b1, block.c3.b2, block.c2.b3⟩,
   ⟨block.c2.b0, block.c1.b1, block.c0.b2, block.c3.b3⟩,
   ⟨block.c3.b0, block.c2.b1, block.c1.b2, block.c0.b3⟩⟩

/-- One output byte of mix_columns: row i of MIX_MATRIX against column w,
accumulated by XOR from 0 exactly as the Rust loop does. -/
def mixEntryF (i : Fin 4) (w : W4) : Nat :=
  0 ^^^ gmul (MIX_MATRIX i 0) w.b0 ^^^ gmul (MIX_MATRIX i 1) w.b1
    ^^^ gmul (MIX_MATRIX i 2) w.b2 ^^^ gmul (MIX_MATRIX i 3) w.b3

/-- mix_columns on one column. -/
def mixW (w : W4) : W4 := ⟨mixEntryF 0 w, mixEntryF 1 w, mixEntryF 2 w, mixEntryF 3 w⟩

/-- Embedding of fn mix_columns (src/lib.rs lines 384-395): after the
transpose, new[j][i] = XOR over k of gmul(MIX_MATRIX[i][k], block[j][k]), so
each column j is transformed independently by mixW. -/
def mix_columns (block : Blk) : Blk :=
  ⟨mixW block.c0, mixW block.c1, mixW block.c2, mixW block.c3⟩

/-- One output byte of inv_mix_columns. -/
def invMixEntryF (i : Fin 4) (w : W4) : Nat :=
  0 ^^^ gmul (INV_MIX_MATRIX i 0) w.b0 ^^^ gmul (INV_MIX_MATRIX i 1) w.b1
    ^^^ gmul (INV_MIX_MATRIX i 2) w.b2 ^^^ gmul (INV_MIX_MATRIX i 3) w.b3

/-- inv_mix_columns on one column. -/
def invMixW (w : W4) : W4 :=
  ⟨invMixEntryF 0 w, invMixEntryF 1 w, invMixEntryF 2 w, invMixEntryF 3 w⟩

/-- Embedding of fn inv_mix_columns (src/lib.rs lines 397-408). -/
def inv_mix_columns (block : Blk) : Blk :=
  ⟨invMixW block.c0, invMixW block.c1, invMixW block.c2, invMixW block.c3⟩

/-- Round 0 of the key schedule (src/lib.rs lines 268-270): the four columns
of the raw key in order; copy_from_slice is modelled by getD with default 0
(construction guarantees sixteen bytes are present). -/
def keys0 (key : List Nat) : Blk :=
  ⟨⟨key.getD 0 0, key.getD 1 0, key.getD 2 0, key.getD 3 0⟩,
   ⟨key.getD 4 0, key.getD 5 0, key.getD 6 0, key.getD 7 0⟩,
   ⟨key.getD 8 0, key.getD 9 0, key.getD 10 0, key.getD 11 0⟩,
   ⟨key.getD 12 0, key.getD 13 0, key.getD 14 0, key.getD 15 0⟩⟩

/-- One round of fn expand_key (src/lib.rs lines 272-290): word 0 from the
rotated and substituted last word of the previous round (first byte XORed with
the round constant), the remaining words chained by XOR. -/
def next_round_key (prev : Blk) (r : Nat) : Blk :=
  let w0 : W4 :=
    ⟨prev.c0.b0 ^^^ (lookup prev.c3.b1 ^^^ round_constant r),
     prev.c0.b1 ^^^ lookup prev.c3.b2,
     prev.c0.b2 ^^^ lookup prev.c3.b3,
     prev.c0.b3 ^^^ lookup prev.c3.b0⟩
  let w1 : W4 := xorW w0 prev.c1
  let w2 : W4 := xorW w1 prev.c2
  let w3 : W4 := xorW w2 prev.c3
  ⟨w0, w1, w2, w3⟩

/-- Embedding of fn expand_key (src/lib.rs lines 265-292), indexed by round:
expand_key key r is keys[r] of the Rust schedule (rounds 0 through 10 are
used). -/
def expand_key (key : List Nat) : Nat → Blk
  | 0 => keys0 key
  | r + 1 => next_round_key (expand_key key r) r

/-- Error type of the library (src/lib.rs lines 6-11); the payloads of the
first two constructors are external library values and are dropped. -/
inductive AESError where
  | invalidBase64 : AESError
  | invalidUTF8 : AESError
  | invalidKeyLength : AESError
deriving DecidableEq

/-- A cipher instance (struct AESteve, src/lib.rs lines 239-242): the expanded
round-key schedule. -/
structure AESteve where
  keys : Nat → Blk

/-- Embedding of AESteve::new (src/lib.rs lines 255-263). -/
def AESteve_new (key : List Nat) : Except AESError AESteve :=
  if key.length ≠ 16 then Except.error AESError.invalidKeyLength
  else Except.ok ⟨expand_key key⟩

/-- One encryption round of the Rust loop body (src/lib.rs lines 412-417):
sub_bytes, shift_rows, mix_columns, add_round_key. -/
def enc_round (k : Blk) (b : Blk) : Blk :=
  add_round_key k (mix_columns (shift_rows (sub_bytes b)))

/-- Embedding of AESteve::encrypt_block (src/lib.rs lines 410-423), the
nine-iteration loop unrolled; ks stands for self.keys. -/
def encrypt_block (ks : Nat → Blk) (block : Blk) : Blk :=
  add_round_key (ks 10) (shift_rows (sub_bytes
    (enc_round (ks 9) (enc_round (ks 8) (enc_round (ks 7) (enc_round (ks 6)
      (enc_round (ks 5) (enc_round (ks 4) (enc_round (ks 3) (enc_round (ks 2)
        (enc_round (ks 1) (add_round_key (ks 0) block))))))))))))

/-- One decryption round of the Rust loop body (src/lib.rs lines 429-434):
add_round_key, inv_mix_columns, inv_shift_rows, inv_sub_bytes. -/
def dec_round (k : Blk) (b : Blk) : Blk :=
  inv_sub_bytes (inv_shift_rows (inv_mix_columns (add_round_key k b)))

/-- Embedding of AESteve::decrypt_block (src/lib.rs lines 425-438), the
nine-iteration loop (keys 9 down to 1) unrolled. -/
def decrypt_block (ks : Nat → Blk) (block : Blk) : Blk :=
  add_round_key (ks 0)
    (dec_round (ks 1) (dec_round (ks 2) (dec_round (ks 3) (dec_round (ks 4)
      (dec_round (ks 5) (dec_round (ks 6) (dec_round (ks 7) (dec_round (ks 8)
        (dec_round (ks 9)
          (inv_sub_bytes (inv_shift_rows (add_round_key (ks 10) block))))))))))))

/-- The while loop of fn pad (src/lib.rs lines 296-298) with an explicit
iteration bound: append zero bytes until the length is a multiple of 16.  The
loop body runs at most 15 times, so 16 fuel steps are enough; structural
recursion on the fuel keeps the definition computable by the kernel. -/
def pad_zeros : Nat → List Nat → List Nat
  | 0, message => message
  | fuel + 1, message =>
    if message.length % 16 = 0 then message else pad_zeros fuel (message ++ [0])

/-- The while loop of fn pad (src/lib.rs lines 296-298). -/
def pad_fill (message : List Nat) : List Nat := pad_zeros 16 message

/-- Embedding of fn pad (src/lib.rs lines 294-300): push the marker byte 0x80,
then zero-fill to a multiple of 16. -/
def pad (message : List Nat) : List Nat := pad_fill (message ++ [0x80])

/-- Embedding of fn depad (src/lib.rs lines 302-308): truncate at the first
occurrence of the marker byte 0x80, or return the message unchanged. -/
def depad (message : List Nat) : List Nat :=
  match message.findIdx? (fun n => n == 0x80) with
  | some pos => message.take pos
  | none => message

/-- Loading one chunk of at most 16 bytes into a state, byte i at position
block[i/4][i%4] (src/lib.rs lines 313-316); missing trailing bytes stay 0. -/
def mkBlock (chunk : List Nat) : Blk :=
  ⟨⟨chunk.getD 0 0, chunk.getD 1 0, chunk.getD 2 0, chunk.getD 3 0⟩,
   ⟨chunk.getD 4 0, chunk.getD 5 0, chunk.getD 6 0, chunk.getD 7 0⟩,
   ⟨chunk.getD 8 0, chunk.getD 9 0, chunk.getD 10 0, chunk.getD 11 0⟩,
   ⟨chunk.getD 12 0, chunk.getD 13 0, chunk.getD 14 0, chunk.getD 15 0⟩⟩

/-- Chunking loop of fn make_blocks with an explicit iteration bound; each
iteration consumes 16 bytes, so message.length fuel steps are always enough.
Structural recursion on the fuel keeps the definition computable by the
kernel. -/
def make_blocks_go : Nat → List Nat → List Blk
  | 0, _ => []
  | fuel + 1, message =>
    if message.isEmpty then []
    else mkBlock (message.take 16) :: make_blocks_go fuel (message.drop 16)

/-- Embedding of fn make_blocks (src/lib.rs lines 310-320): split into chunks
of 16 (the last chunk may be shorter and is zero-extended by mkBlock). -/
def make_blocks (message : List Nat) : List Blk :=
  make_blocks_go message.length message

/-- Flattening one encrypted or decrypted state back to bytes, in the order of
the flat_map of src/lib.rs lines 463-466. -/
def block_bytes (b : Blk) : List Nat :=
  [b.c0.b0, b.c0.b1, b.c0.b2, b.c0.b3,
   b.c1.b0, b.c1.b1, b.c1.b2, b.c1.b3,
   b.c2.b0, b.c2.b1, b.c2.b2, b.c2.b3,
   b.c3.b0, b.c3.b1, b.c3.b2, b.c3.b3]

/-- Concatenation of flattened states. -/
def join_blocks : List Blk → List Nat
  | [] => []
  | b :: bs => block_bytes b ++ join_blocks bs

/-- Byte-level core of AESteve::encrypt (src/lib.rs lines 453-468): pad,
block, transform every block, flatten.  The rayon parallel map is modelled by
List.map, which preserves block order as the Rust collect does. -/
def encrypt_bytes (ks : Nat → Blk) (message : List Nat) : List Nat :=
  join_blocks ((make_blocks (pad message)).map (encrypt_block ks))

/-- Byte-level core of AESteve::decrypt (src/lib.rs lines 483-499): block the
decoded bytes (no length check), transform every block, flatten, depad.  The
final UTF-8 decoding of the Rust code is outside this byte-level core. -/
def decrypt_bytes (ks : Nat → Blk) (decoded : List Nat) : List Nat :=
  depad (join_blocks ((make_blocks decoded).map (decrypt_block ks)))

/-- AESteve::encrypt with the base64 transport encoder abstracted as a
parameter enc (the base64 crate is an external collaborator of the library;
the spec treats it purely at its interface boundary). -/
def encrypt {T : Type} (enc : List Nat → T) (ks : Nat → Blk) (message : List Nat) : T :=
  enc (encrypt_bytes ks message)

/-- AESteve::decrypt with the base64 transport decoder abstracted as a
parameter dec; none models the base64 decode error arm. -/
def decrypt {T : Type} (dec : T → Option (List Nat)) (ks : Nat → Blk) (ct : T) :
    Option (List Nat) :=
  (dec ct).map (decrypt_bytes ks)

/-- Option-valued substitution on one column: none if any byte lookup
panics. -/
def subW? (w : W4) : Option W4 :=
  match lookup? w.b0, lookup? w.b1, lookup? w.b2, lookup? w.b3 with
  | some a, some b, some c, some d => some ⟨a, b, c, d⟩
  | _, _, _, _ => none

/-- Option-valued sub_bytes. -/
def sub_bytes? (block : Blk) : Option Blk :=
  match subW? block.c0, subW? block.c1, subW? block.c2, subW? block.c3 with
  | some a, some b, some c, some d => some ⟨a, b, c, d⟩
  | _, _, _, _ => none

/-- Option-valued inverse substitution on one column. -/
def rsubW? (w : W4) : Option W4 :=
  match reverse_lookup? w.b0, reverse_lookup? w.b1, reverse_lookup? w.b2, reverse_lookup? w.b3 with
  | some a, some b, some c, some d => some ⟨a, b, c, d⟩
  | _, _, _, _ => none

/-- Option-valued inv_sub_bytes. -/
def inv_sub_bytes? (block : Blk) : Option Blk :=
  match rsubW? block.c0, rsubW? block.c1, rsubW? block.c2, rsubW? block.c3 with
  | some a, some b, some c, some d => some ⟨a, b, c, d⟩
  | _, _, _, _ => none

/-- Option-valued mix_columns output byte: none if any Galois multiplication
panics. -/
def mixEntryF? (i : Fin 4) (w : W4) : Option Nat :=
  match gmul? (MIX_MATRIX i 0) w.b0, gmul? (MIX_MATRIX i 1) w.b1,
        gmul? (MIX_MATRIX i 2) w.b2, gmul? (MIX_MATRIX i 3) w.b3 with
  | some t0, some t1, some t2, some t3 => some (0 ^^^ t0 ^^^ t1 ^^^ t2 ^^^ t3)
  | _, _, _, _ => none

/-- Option-valued mix_columns on one column. -/
def mixW? (w : W4) : Option W4 :=
  match mixEntryF? 0 w, mixEntryF? 1 w, mixEntryF? 2 w, mixEntryF? 3 w with
  | some a, some b, some c, some d => some ⟨a, b, c, d⟩
  | _, _, _, _ => none

/-- Option-valued mix_columns. -/
def mix_columns? (block : Blk) : Option Blk :=
  match mixW? block.c0, mixW? block.c1, mixW? block.c2, mixW? block.c3 with
  | some a, some b, some c, some d => some ⟨a, b, c, d⟩
  | _, _, _, _ => none

/-- Option-valued inv_mix_columns output byte. -/
def invMixEntryF? (i : Fin 4) (w : W4) : Option Nat :=
  match gmul? (INV_MIX_MATRIX i 0) w.b0, gmul? (INV_MIX_MATRIX i 1) w.b1,
        gmul? (INV_MIX_MATRIX i 2) w.b2, gmul? (INV_MIX_MATRIX i 3) w.b3 with
  | some t0, some t1, some t2, some t3 => some (0 ^^^ t0 ^^^ t1 ^^^ t2 ^^^ t3)
  | _, _, _, _ => none

/-- Option-valued inv_mix_columns on one column. -/
def invMixW? (w : W4) : Option W4 :=
  match invMixEntryF? 0 w, invMixEntryF? 1 w, invMixEntryF? 2 w, invMixEntryF? 3 w with
  | some a, some b, some c, some d => some ⟨a, b, c, d⟩
  | _, _, _, _ => none

/-- Option-valued inv_mix_columns. -/
def inv_mix_columns? (block : Blk) : Option Blk :=
  match invMixW? block.c0, invMixW? block.c1, invMixW? block.c2, invMixW? block.c3 with
  | some a, some b, some c, some d => some ⟨a, b, c, d⟩
  | _, _, _, _ => none

/-- Option-valued encryption round body. -/
def enc_round? (k : Blk) (b : Blk) : Option Blk :=
  Option.bind (sub_bytes? b) (fun s =>
    Option.bind (mix_columns? (shift_rows s)) (fun m =>
      some (add_round_key k m)))

/-- Option-valued encrypt_block: none exactly where AESteve::encrypt_block
would panic. -/
def encrypt_block? (ks : Nat → Blk) (block : Blk) : Option Blk :=
  Option.bind (enc_round? (ks 1) (add_round_key (ks 0) block)) (fun x1 =>
  Option.bind (enc_round? (ks 2) x1) (fun x2 =>
  Option.bind (enc_round? (ks 3) x2) (fun x3 =>
  Option.bind (enc_round? (ks 4) x3) (fun x4 =>
  Option.bind (enc_round? (ks 5) x4) (fun x5 =>
  Option.bind (enc_round? (ks 6) x5) (fun x6 =>
  Option.bind (enc_round? (ks 7) x6) (fun x7 =>
  Option.bind (enc_round? (ks 8) x7) (fun x8 =>
  Option.bind (enc_round? (ks 9) x8) (fun x9 =>
  Option.bind (sub_bytes? x9) (fun s =>
    some (add_round_key (ks 10) (shift_rows s))))))))))))

/-- Option-valued decryption round body. -/
def dec_round? (k : Blk) (b : Blk) : Option Blk :=
  Option.bind (inv_mix_columns? (add_round_key k b)) (fun m =>
    inv_sub_bytes? (inv_shift_rows m))

/-- Option-valued decrypt_block: none exactly where AESteve::decrypt_block
would panic. -/
def decrypt_block? (ks : Nat → Blk) (block : Blk) : Option Blk :=
  Option.bind (inv_sub_bytes? (inv_shift_rows (add_round_key (ks 10) block))) (fun s =>
  Option.bind (dec_round? (ks 9) s) (fun x9 =>
  Option.bind (dec_round? (ks 8) x9) (fun x8 =>
  Option.bind (dec_round? (ks 7) x8) (fun x7 =>
  Option.bind (dec_round? (ks 6) x7) (fun x6 =>
  Option.bind (dec_round? (ks 5) x6) (fun x5 =>
  Option.bind (dec_round? (ks 4) x5) (fun x4 =>
  Option.bind (dec_round? (ks 3) x4) (fun x3 =>
  Option.bind (dec_round? (ks 2) x3) (fun x2 =>
  Option.bind (dec_round? (ks 1) x2) (fun x1 =>
    some (add_round_key (ks 0) x1)))))))))))

/-- Option-valued key-expansion round. -/
def next_round_key? (prev : Blk) (r : Nat) : Option Blk :=
  match lookup? prev.c3.b1, lookup? prev.c3.b2, lookup? prev.c3.b3, lookup? prev.c3.b0,
        round_constant? r with
  | some s1, some s2, some s3, some s0, some rc =>
    let w0 : W4 :=
      ⟨prev.c0.b0 ^^^ (s1 ^^^ rc), prev.c0.b1 ^^^ s2, prev.c0.b2 ^^^ s3, prev.c0.b3 ^^^ s0⟩
    let w1 : W4 := xorW w0 prev.c1
    let w2 : W4 := xorW w1 prev.c2
    let w3 : W4 := xorW w2 prev.c3
    some ⟨w0, w1, w2, w3⟩
  | _, _, _, _, _ => none

/-- Option-valued expand_key: none exactly where the expansion would panic. -/
def expand_key? (key : List Nat) : Nat → Option Blk
  | 0 => some (keys0 key)
  | r + 1 => Option.bind (expand_key? key r) (fun prev => next_round_key? prev r)

/-- Option-valued map over blocks: none as soon as one block transform
panics. -/
def mapOpt (f : Blk → Option Blk) : List Blk → Option (List Blk)
  | [] => some []
  | b :: bs =>
    match f b, mapOpt f bs with
    | some c, some cs => some (c :: cs)
    | _, _ => none

/-- Option-valued byte-level encrypt. -/
def encrypt_bytes? (ks : Nat → Blk) (message : List Nat) : Option (List Nat) :=
  Option.bind (mapOpt (encrypt_block? ks) (make_blocks (pad message)))
    (fun ebs => some (join_blocks ebs))

/-- Option-valued byte-level decrypt. -/
def decrypt_bytes? (ks : Nat → Blk) (decoded : List Nat) : Option (List Nat) :=
  Option.bind (mapOpt (decrypt_block? ks) (make_blocks decoded))
    (fun dbs => some (depad (join_blocks dbs)))

/-- xtime: multiplication by x in GF(2^8) reduced by the AES polynomial
x^8+x^4+x^3+x+1 (0x11b). -/
def xtime (b : Nat) : Nat :=
  if b < 128 then 2 * b else (2 * b) ^^^ 0x11b

/-- Shift-and-add Galois-field product: one fuel step per bit of n, adding m
(by XOR) whenever the current low bit of n is set and doubling m by xtime. -/
def gmulIter : Nat → Nat → Nat → Nat
  | 0, _, _ => 0
  | fuel + 1, n, m => (if n % 2 = 1 then m else 0) ^^^ gmulIter fuel (n / 2) (xtime m)

/-- Reference Galois-field product of the bytes n and m in GF(2^8) with the
AES reduction polynomial x^8+x^4+x^3+x+1: shift-and-add over the 8 bits of n.
Claim C5 compares the table-driven gmul against this definition. -/
def gmulRef (n m : Nat) : Nat := gmulIter 8 n m

/-- Spec-side helper for claim C4: rotate the four bytes of a word left by one
position. -/
def rot_word (w : W4) : W4 := ⟨w.b1, w.b2, w.b3, w.b0⟩

/-- Spec-side helper for claim C4: apply the forward substitution
byte-wise. -/
def sub_word (w : W4) : W4 := ⟨lookup w.b0, lookup w.b1, lookup w.b2, lookup w.b3⟩

/-- Spec-side helper for claim C4: XOR only the first byte with the round
constant for round r (0-indexed into the 22-entry table). -/
def rcon_adjust (r : Nat) (w : W4) : W4 :=
  ⟨w.b0 ^^^ round_constant r, w.b1, w.b2, w.b3⟩

/-- Well-formedness of a column: all four bytes are u8 values. -/
def wfW (w : W4) : Prop := w.b0 < 256 ∧ w.b1 < 256 ∧ w.b2 < 256 ∧ w.b3 < 256

/-- Well-formedness of a state: all sixteen bytes are u8 values. -/
def wfB (b : Blk) : Prop := wfW b.c0 ∧ wfW b.c1 ∧ wfW b.c2 ∧ wfW b.c3

/-- Well-formedness of a byte list: every entry is a u8 value. -/
def wfL (l : List Nat) : Prop := ∀ x ∈ l, x < 256

instance (w : W4) : Decidable (wfW w) := by unfold wfW; infer_instance

instance (b : Blk) : Decidable (wfB b) := by unfold wfB; infer_instance

instance (l : List Nat) : Decidable (wfL l) := by unfold wfL; infer_instance

/-- The multiplicands supported by table_index together with 1 (the identity
arm of gmul): exactly the entries of the two diffusion matrices. -/
def validMul (n : Nat) : Prop := n ∈ [1, 2, 3, 9, 11, 13, 14]

instance (n : Nat) : Decidable (validMul n) := by unfold validMul; infer_instance

instance : Std.Associative (fun a b : Nat => a ^^^ b) := ⟨Nat.xor_assoc⟩

instance : Std.Commutative (fun a b : Nat => a ^^^ b) := ⟨Nat.xor_comm⟩
set_option maxRecDepth 40000

/-! Part two: theorems.  First a battery of finite facts settled by decide,
then the algebraic development, then the claim theorems. -/

theorem xor_lt_256 : ∀ a, a < 256 → ∀ b, b < 256 → a ^^^ b < 256 :=
  fun a ha b hb => @Nat.xor_lt_two_pow a b 8 ha hb

theorem xor_lt_16 : ∀ a, a < 16 → ∀ b, b < 16 → a ^^^ b < 16 :=
  fun a ha b hb => @Nat.xor_lt_two_pow a b 4 ha hb

/-- Adding a low nibble to a shifted high nibble is a disjoint-bit XOR. -/
theorem mul16_add_eq_xor : ∀ a, a < 16 → ∀ c, c < 16 → 16 * a ^^^ c = 16 * a + c := by decide

/-- Multiplication by 16 commutes with XOR on nibbles. -/
theorem mul16_xor : ∀ a, a < 16 → ∀ b, b < 16 → 16 * (a ^^^ b) = 16 * a ^^^ 16 * b := by
  decide

theorem validMul_MIX : ∀ i k : Fin 4, validMul (MIX_MATRIX i k) := by decide

theorem validMul_INV : ∀ i k : Fin 4, validMul (INV_MIX_MATRIX i k) := by decide

theorem wf_lookup : ∀ b, b < 256 → lookup b < 256 := by decide

theorem wf_reverse_lookup : ∀ b, b < 256 → reverse_lookup b < 256 := by decide

/-- The two substitution boxes are mutual inverses on u8 values. -/
theorem rlookup_lookup : ∀ b, b < 256 → reverse_lookup (lookup b) = b := by decide

theorem wf_round_constant : ∀ r, r < 22 → round_constant r < 256 := by decide

theorem wf_gmulRef : ∀ n ∈ [1, 2, 3, 9, 11, 13, 14], ∀ m, m < 256 → gmulRef n m < 256 := by
  decide

/-- gmulRef splits over the high and low nibble of its second argument. -/
theorem gmulRef_split : ∀ n ∈ [1, 2, 3, 9, 11, 13, 14], ∀ h, h < 16 → ∀ l, l < 16 →
    gmulRef n (16 * h + l) = gmulRef n (16 * h) ^^^ gmulRef n l := by decide

/-- gmulRef is XOR-linear on high nibbles. -/
theorem gmulRef_hi : ∀ n ∈ [1, 2, 3, 9, 11, 13, 14], ∀ a, a < 16 → ∀ b, b < 16 →
    gmulRef n (16 * (a ^^^ b)) = gmulRef n (16 * a) ^^^ gmulRef n (16 * b) := by decide

/-- gmulRef is XOR-linear on low nibbles. -/
theorem gmulRef_lo : ∀ n ∈ [1, 2, 3, 9, 11, 13, 14], ∀ a, a < 16 → ∀ b, b < 16 →
    gmulRef n (a ^^^ b) = gmulRef n a ^^^ gmulRef n b := by decide
/-- gmulRef by 1 is the identity: the single set bit of 1 adds m once. -/
theorem gmulRef_one (m : Nat) : gmulRef 1 m = m := by
  norm_num [gmulRef, gmulIter]

/-- The whole gmul lookup table equals the reference products: row by row,
each of the six rows is the map of the reference multiplication over all 256
byte values, compared entry-wise in one pass. -/
theorem TABLE_eq_ref : TABLE =
    [List.map (gmulRef 2) (List.range 256), List.map (gmulRef 3) (List.range 256),
     List.map (gmulRef 9) (List.range 256), List.map (gmulRef 11) (List.range 256),
     List.map (gmulRef 13) (List.range 256), List.map (gmulRef 14) (List.range 256)] := by
  decide

theorem getD_map_range (f : Nat → Nat) (k m : Nat) (h : m < k) :
    (List.map f (List.range k)).getD m 0 = f m := by
  rw [List.getD_eq_getElem?_getD, List.getElem?_map, List.getElem?_range h]
  rfl

theorem gmul_eq_gmulRef : ∀ n ∈ [1, 2, 3, 9, 11, 13, 14], ∀ m, m < 256 →
    gmul n m = gmulRef n m := by
  have key : ∀ v : Nat, ∀ m, m < 256 →
      (List.map (gmulRef v) (List.range 256)).getD m 0 = gmulRef v m :=
    fun v m hm => getD_map_range (gmulRef v) 256 m hm
  intro n hn m hm
  simp only [List.mem_cons, List.mem_singleton] at hn
  rcases hn with rfl | rfl | rfl | rfl | rfl | rfl | rfl | h
  · exact (gmulRef_one m).symm
  · calc gmul 2 m = (TABLE.getD (table_index 2) []).getD m 0 := rfl
      _ = (List.map (gmulRef 2) (List.range 256)).getD m 0 := by
        rw [TABLE_eq_ref]
        rfl
      _ = gmulRef 2 m := key 2 m hm
  · calc gmul 3 m = (TABLE.getD (table_index 3) []).getD m 0 := rfl
      _ = (List.map (gmulRef 3) (List.range 256)).getD m 0 := by
        rw [TABLE_eq_ref]
        rfl
      _ = gmulRef 3 m := key 3 m hm
  · calc gmul 9 m = (TABLE.getD (table_index 9) []).getD m 0 := rfl
      _ = (List.map (gmulRef 9) (List.range 256)).getD m 0 := by
        rw [TABLE_eq_ref]
        rfl
      _ = gmulRef 9 m := key 9 m hm
  · calc gmul 11 m = (TABLE.getD (table_index 11) []).getD m 0 := rfl
      _ = (List.map (gmulRef 11) (List.range 256)).getD m 0 := by
        rw [TABLE_eq_ref]
        rfl
      _ = gmulRef 11 m := key 11 m hm
  · calc gmul 13 m = (TABLE.getD (table_index 13) []).getD m 0 := rfl
      _ = (List.map (gmulRef 13) (List.range 256)).getD m 0 := by
        rw [TABLE_eq_ref]
        rfl
      _ = gmulRef 13 m := key 13 m hm
  · calc gmul 14 m = (TABLE.getD (table_index 14) []).getD m 0 := rfl
      _ = (List.map (gmulRef 14) (List.range 256)).getD m 0 := by
        rw [TABLE_eq_ref]
        rfl
      _ = gmulRef 14 m := key 14 m hm
  · simp at h

theorem gmul?_some : ∀ n ∈ [1, 2, 3, 9, 11, 13, 14], ∀ m, m < 256 →
    gmul? n m = some (gmul n m) := by
  have key : ∀ v : Nat, ∀ m, m < 256 →
      (List.map (gmulRef v) (List.range 256))[m]? = some (gmulRef v m) := by
    intro v m hm
    rw [List.getElem?_map, List.getElem?_range hm]
    rfl
  intro n hn m hm
  simp only [List.mem_cons, List.mem_singleton] at hn
  rcases hn with rfl | rfl | rfl | rfl | rfl | rfl | rfl | h
  · rfl
  · calc gmul? 2 m
        = (match TABLE[(0 : Nat)]? with | some row => row[m]? | none => none) := rfl
      _ = (List.map (gmulRef 2) (List.range 256))[m]? := by
        rw [TABLE_eq_ref]
        rfl
      _ = some (gmulRef 2 m) := key 2 m hm
      _ = some (gmul 2 m) := by rw [gmul_eq_gmulRef 2 (by simp) m hm]
  · calc gmul? 3 m
        = (match TABLE[(1 : Nat)]? with | some row => row[m]? | none => none) := rfl
      _ = (List.map (gmulRef 3) (List.range 256))[m]? := by
        rw [TABLE_eq_ref]
        rfl
      _ = some (gmulRef 3 m) := key 3 m hm
      _ = some (gmul 3 m) := by rw [gmul_eq_gmulRef 3 (by simp) m hm]
  · calc gmul? 9 m
        = (match TABLE[(2 : Nat)]? with | some row => row[m]? | none => none) := rfl
      _ = (List.map (gmulRef 9) (List.range 256))[m]? := by
        rw [TABLE_eq_ref]
        rfl
      _ = some (gmulRef 9 m) := key 9 m hm
      _ = some (gmul 9 m) := by rw [gmul_eq_gmulRef 9 (by simp) m hm]
  · calc gmul? 11 m
        = (match TABLE[(3 : Nat)]? with | some row => row[m]? | none => none) := rfl
      _ = (List.map (gmulRef 11) (List.range 256))[m]? := by
        rw [TABLE_eq_ref]
        rfl
      _ = some (gmulRef 11 m) := key 11 m hm
      _ = some (gmul 11 m) := by rw [gmul_eq_gmulRef 11 (by simp) m hm]
  · calc gmul? 13 m
        = (match TABLE[(4 : Nat)]? with | some row => row[m]? | none => none) := rfl
      _ = (List.map (gmulRef 13) (List.range 256))[m]? := by
        rw [TABLE_eq_ref]
        rfl
      _ = some (gmulRef 13 m) := key 13 m hm
      _ = some (gmul 13 m) := by rw [gmul_eq_gmulRef 13 (by simp) m hm]
  · calc gmul? 14 m
        = (match TABLE[(5 : Nat)]? with | some row => row[m]? | none => none) := rfl
      _ = (List.map (gmulRef 14) (List.range 256))[m]? := by
        rw [TABLE_eq_ref]
        rfl
      _ = some (gmulRef 14 m) := key 14 m hm
      _ = some (gmul 14 m) := by rw [gmul_eq_gmulRef 14 (by simp) m hm]
  · simp at h


set_option maxHeartbeats 800000 in
/-- Diffusion-matrix orthogonality in reference arithmetic on shifted high
nibbles. -/
theorem mix_orthogonal_ref_hi : ∀ i l : Fin 4, ∀ h, h < 16 →
    gmulRef (INV_MIX_MATRIX i 0) (gmulRef (MIX_MATRIX 0 l) (16 * h))
      ^^^ gmulRef (INV_MIX_MATRIX i 1) (gmulRef (MIX_MATRIX 1 l) (16 * h))
      ^^^ gmulRef (INV_MIX_MATRIX i 2) (gmulRef (MIX_MATRIX 2 l) (16 * h))
      ^^^ gmulRef (INV_MIX_MATRIX i 3) (gmulRef (MIX_MATRIX 3 l) (16 * h))
    = if i = l then 16 * h else 0 := by decide

set_option maxHeartbeats 800000 in
/-- Diffusion-matrix orthogonality in reference arithmetic on low nibbles. -/
theorem mix_orthogonal_ref_lo : ∀ i l : Fin 4, ∀ v, v < 16 →
    gmulRef (INV_MIX_MATRIX i 0) (gmulRef (MIX_MATRIX 0 l) v)
      ^^^ gmulRef (INV_MIX_MATRIX i 1) (gmulRef (MIX_MATRIX 1 l) v)
      ^^^ gmulRef (INV_MIX_MATRIX i 2) (gmulRef (MIX_MATRIX 2 l) v)
      ^^^ gmulRef (INV_MIX_MATRIX i 3) (gmulRef (MIX_MATRIX 3 l) v)
    = if i = l then v else 0 := by decide
theorem validMul_lt : ∀ n ∈ [1, 2, 3, 9, 11, 13, 14], n < 16 := by decide

theorem wf_gmul (n : Nat) (hn : validMul n) (m : Nat) (hm : m < 256) : gmul n m < 256 := by
  rw [gmul_eq_gmulRef n hn m hm]
  exact wf_gmulRef n hn m hm

/-- XOR acts nibble-wise: no interaction between the high and the low 4
bits. -/
theorem nibble_xor : ∀ a, a < 16 → ∀ b, b < 16 → ∀ c, c < 16 → ∀ d, d < 16 →
    (16 * a + c) ^^^ (16 * b + d) = 16 * (a ^^^ b) + (c ^^^ d) := by
  intro a ha b hb c hc d hd
  rw [← mul16_add_eq_xor a ha c hc, ← mul16_add_eq_xor b hb d hd,
    ← mul16_add_eq_xor (a ^^^ b) (xor_lt_16 a ha b hb) (c ^^^ d) (xor_lt_16 c hc d hd),
    mul16_xor a ha b hb]
  ac_rfl

/-- gmulRef distributes over XOR in its second argument (on u8 values), by the
nibble decomposition. -/
theorem gmulRef_linear (n x y : Nat) (hn : validMul n) (hx : x < 256) (hy : y < 256) :
    gmulRef n (x ^^^ y) = gmulRef n x ^^^ gmulRef n y := by
  have h1 : x / 16 < 16 := by omega
  have h2 : x % 16 < 16 := by omega
  have h3 : y / 16 < 16 := by omega
  have h4 : y % 16 < 16 := by omega
  have ex : 16 * (x / 16) + x % 16 = x := by omega
  have ey : 16 * (y / 16) + y % 16 = y := by omega
  calc gmulRef n (x ^^^ y)
      = gmulRef n ((16 * (x / 16) + x % 16) ^^^ (16 * (y / 16) + y % 16)) := by rw [ex, ey]
    _ = gmulRef n (16 * (x / 16 ^^^ y / 16) + (x % 16 ^^^ y % 16)) := by
        rw [nibble_xor _ h1 _ h3 _ h2 _ h4]
    _ = gmulRef n (16 * (x / 16 ^^^ y / 16)) ^^^ gmulRef n (x % 16 ^^^ y % 16) :=
        gmulRef_split n hn _ (xor_lt_16 _ h1 _ h3) _ (xor_lt_16 _ h2 _ h4)
    _ = (gmulRef n (16 * (x / 16)) ^^^ gmulRef n (16 * (y / 16)))
          ^^^ (gmulRef n (x % 16) ^^^ gmulRef n (y % 16)) := by
        rw [gmulRef_hi n hn _ h1 _ h3, gmulRef_lo n hn _ h2 _ h4]
    _ = (gmulRef n (16 * (x / 16)) ^^^ gmulRef n (x % 16))
          ^^^ (gmulRef n (16 * (y / 16)) ^^^ gmulRef n (y % 16)) := by ac_rfl
    _ = gmulRef n x ^^^ gmulRef n y := by
        rw [← gmulRef_split n hn _ h1 _ h2, ← gmulRef_split n hn _ h3 _ h4, ex, ey]

/-- The table-driven gmul distributes over XOR in its second argument for
every diffusion-matrix multiplicand. -/
theorem gmul_linear (n x y : Nat) (hn : validMul n) (hx : x < 256) (hy : y < 256) :
    gmul n (x ^^^ y) = gmul n x ^^^ gmul n y := by
  rw [gmul_eq_gmulRef n hn _ (xor_lt_256 x hx y hy), gmul_eq_gmulRef n hn x hx,
    gmul_eq_gmulRef n hn y hy]
  exact gmulRef_linear n x y hn hx hy

theorem gmul_linear4 (n x0 x1 x2 x3 : Nat) (hn : validMul n) (h0 : x0 < 256)
    (h1 : x1 < 256) (h2 : x2 < 256) (h3 : x3 < 256) :
    gmul n (x0 ^^^ x1 ^^^ x2 ^^^ x3) = gmul n x0 ^^^ gmul n x1 ^^^ gmul n x2 ^^^ gmul n x3 := by
  rw [gmul_linear n _ x3 hn (xor_lt_256 _ (xor_lt_256 _ h0 _ h1) _ h2) h3,
    gmul_linear n _ x2 hn (xor_lt_256 _ h0 _ h1) h2,
    gmul_linear n x0 x1 hn h0 h1]

/-- Row i of INV_MIX_MATRIX composed with column l of MIX_MATRIX, in reference
arithmetic, is the identity matrix entry as a map on u8 values: split the byte
into nibbles, distribute by linearity, and use the two nibble checks. -/
theorem mix_orthogonal_ref (i l : Fin 4) (x : Nat) (hx : x < 256) :
    gmulRef (INV_MIX_MATRIX i 0) (gmulRef (MIX_MATRIX 0 l) x)
      ^^^ gmulRef (INV_MIX_MATRIX i 1) (gmulRef (MIX_MATRIX 1 l) x)
      ^^^ gmulRef (INV_MIX_MATRIX i 2) (gmulRef (MIX_MATRIX 2 l) x)
      ^^^ gmulRef (INV_MIX_MATRIX i 3) (gmulRef (MIX_MATRIX 3 l) x)
    = if i = l then x else 0 := by
  have hh : x / 16 < 16 := by omega
  have hl : x % 16 < 16 := by omega
  have hhi : 16 * (x / 16) < 256 := by omega
  have hlo : x % 16 < 256 := by omega
  have hx' : 16 * (x / 16) ^^^ x % 16 = x := by
    rw [mul16_add_eq_xor _ hh _ hl]
    omega
  conv_lhs => rw [← hx']
  have step : ∀ k : Fin 4,
      gmulRef (INV_MIX_MATRIX i k) (gmulRef (MIX_MATRIX k l) (16 * (x / 16) ^^^ x % 16))
        = gmulRef (INV_MIX_MATRIX i k) (gmulRef (MIX_MATRIX k l) (16 * (x / 16)))
          ^^^ gmulRef (INV_MIX_MATRIX i k) (gmulRef (MIX_MATRIX k l) (x % 16)) := by
    intro k
    rw [gmulRef_linear _ _ _ (validMul_MIX k l) hhi hlo,
      gmulRef_linear _ _ _ (validMul_INV i k)
        (wf_gmulRef _ (validMul_MIX k l) _ hhi) (wf_gmulRef _ (validMul_MIX k l) _ hlo)]
  rw [step 0, step 1, step 2, step 3]
  calc (gmulRef (INV_MIX_MATRIX i 0) (gmulRef (MIX_MATRIX 0 l) (16 * (x / 16)))
          ^^^ gmulRef (INV_MIX_MATRIX i 0) (gmulRef (MIX_MATRIX 0 l) (x % 16)))
        ^^^ (gmulRef (INV_MIX_MATRIX i 1) (gmulRef (MIX_MATRIX 1 l) (16 * (x / 16)))
          ^^^ gmulRef (INV_MIX_MATRIX i 1) (gmulRef (MIX_MATRIX 1 l) (x % 16)))
        ^^^ (gmulRef (INV_MIX_MATRIX i 2) (gmulRef (MIX_MATRIX 2 l) (16 * (x / 16)))
          ^^^ gmulRef (INV_MIX_MATRIX i 2) (gmulRef (MIX_MATRIX 2 l) (x % 16)))
        ^^^ (gmulRef (INV_MIX_MATRIX i 3) (gmulRef (MIX_MATRIX 3 l) (16 * (x / 16)))
          ^^^ gmulRef (INV_MIX_MATRIX i 3) (gmulRef (MIX_MATRIX 3 l) (x % 16)))
      = (gmulRef (INV_MIX_MATRIX i 0) (gmulRef (MIX_MATRIX 0 l) (16 * (x / 16)))
          ^^^ gmulRef (INV_MIX_MATRIX i 1) (gmulRef (MIX_MATRIX 1 l) (16 * (x / 16)))
          ^^^ gmulRef (INV_MIX_MATRIX i 2) (gmulRef (MIX_MATRIX 2 l) (16 * (x / 16)))
          ^^^ gmulRef (INV_MIX_MATRIX i 3) (gmulRef (MIX_MATRIX 3 l) (16 * (x / 16))))
        ^^^ (gmulRef (INV_MIX_MATRIX i 0) (gmulRef (MIX_MATRIX 0 l) (x % 16))
          ^^^ gmulRef (INV_MIX_MATRIX i 1) (gmulRef (MIX_MATRIX 1 l) (x % 16))
          ^^^ gmulRef (INV_MIX_MATRIX i 2) (gmulRef (MIX_MATRIX 2 l) (x % 16))
          ^^^ gmulRef (INV_MIX_MATRIX i 3) (gmulRef (MIX_MATRIX 3 l) (x % 16))) := by ac_rfl
    _ = (if i = l then 16 * (x / 16) else 0) ^^^ (if i = l then x % 16 else 0) := by
        rw [mix_orthogonal_ref_hi i l _ hh, mix_orthogonal_ref_lo i l _ hl]
    _ = if i = l then x else 0 := by
        by_cases he : i = l
        · subst he
          rw [if_pos rfl, if_pos rfl, if_pos rfl]
          exact hx'
        · simp [he]

/-- Row i of INV_MIX_MATRIX composed with column l of MIX_MATRIX through the
table-driven gmul is the identity matrix entry as a map on u8 values. -/
theorem mix_orthogonal (i l : Fin 4) (x : Nat) (hx : x < 256) :
    gmul (INV_MIX_MATRIX i 0) (gmul (MIX_MATRIX 0 l) x)
      ^^^ gmul (INV_MIX_MATRIX i 1) (gmul (MIX_MATRIX 1 l) x)
      ^^^ gmul (INV_MIX_MATRIX i 2) (gmul (MIX_MATRIX 2 l) x)
      ^^^ gmul (INV_MIX_MATRIX i 3) (gmul (MIX_MATRIX 3 l) x)
    = if i = l then x else 0 := by
  have hM : ∀ k : Fin 4, gmul (MIX_MATRIX k l) x = gmulRef (MIX_MATRIX k l) x :=
    fun k => gmul_eq_gmulRef _ (validMul_MIX k l) x hx
  have hMlt : ∀ k : Fin 4, gmulRef (MIX_MATRIX k l) x < 256 :=
    fun k => wf_gmulRef _ (validMul_MIX k l) x hx
  rw [hM 0, hM 1, hM 2, hM 3,
    gmul_eq_gmulRef _ (validMul_INV i 0) _ (hMlt 0),
    gmul_eq_gmulRef _ (validMul_INV i 1) _ (hMlt 1),
    gmul_eq_gmulRef _ (validMul_INV i 2) _ (hMlt 2),
    gmul_eq_gmulRef _ (validMul_INV i 3) _ (hMlt 3)]
  exact mix_orthogonal_ref i l x hx

theorem xor_xor_cancel (a b : Nat) : a ^^^ (a ^^^ b) = b := by
  rw [← Nat.xor_assoc, Nat.xor_self, Nat.zero_xor]

/-- add_round_key with the same key is an involution (pure XOR, no range
condition needed). -/
theorem ark_ark (k b : Blk) : add_round_key k (add_round_key k b) = b := by
  simp [add_round_key, xorW, xor_xor_cancel]

/-- inv_shift_rows undoes shift_rows (a pure index permutation). -/
theorem invshift_shift (b : Blk) : inv_shift_rows (shift_rows b) = b := rfl

/-- shift_rows undoes inv_shift_rows. -/
theorem shift_invshift (b : Blk) : shift_rows (inv_shift_rows b) = b := rfl

/-- inv_sub_bytes undoes sub_bytes on well-formed states. -/
theorem invsub_sub (b : Blk) (hb : wfB b) : inv_sub_bytes (sub_bytes b) = b := by
  obtain ⟨⟨h00, h01, h02, h03⟩, ⟨h10, h11, h12, h13⟩,
    ⟨h20, h21, h22, h23⟩, ⟨h30, h31, h32, h33⟩⟩ := hb
  simp only [sub_bytes, inv_sub_bytes, subW, rsubW]
  rw [rlookup_lookup _ h00, rlookup_lookup _ h01, rlookup_lookup _ h02, rlookup_lookup _ h03,
    rlookup_lookup _ h10, rlookup_lookup _ h11, rlookup_lookup _ h12, rlookup_lookup _ h13,
    rlookup_lookup _ h20, rlookup_lookup _ h21, rlookup_lookup _ h22, rlookup_lookup _ h23,
    rlookup_lookup _ h30, rlookup_lookup _ h31, rlookup_lookup _ h32, rlookup_lookup _ h33]

theorem wfW_xorW (a b : W4) (ha : wfW a) (hb : wfW b) : wfW (xorW a b) := by
  obtain ⟨a0, a1, a2, a3⟩ := ha
  obtain ⟨b0, b1, b2, b3⟩ := hb
  exact ⟨xor_lt_256 _ a0 _ b0, xor_lt_256 _ a1 _ b1, xor_lt_256 _ a2 _ b2, xor_lt_256 _ a3 _ b3⟩

theorem wfB_ark (k b : Blk) (hk : wfB k) (hb : wfB b) : wfB (add_round_key k b) :=
  ⟨wfW_xorW _ _ hk.1 hb.1, wfW_xorW _ _ hk.2.1 hb.2.1,
   wfW_xorW _ _ hk.2.2.1 hb.2.2.1, wfW_xorW _ _ hk.2.2.2 hb.2.2.2⟩

theorem wfW_subW (w : W4) (hw : wfW w) : wfW (subW w) :=
  ⟨wf_lookup _ hw.1, wf_lookup _ hw.2.1, wf_lookup _ hw.2.2.1, wf_lookup _ hw.2.2.2⟩

theorem wfB_sub (b : Blk) (hb : wfB b) : wfB (sub_bytes b) :=
  ⟨wfW_subW _ hb.1, wfW_subW _ hb.2.1, wfW_subW _ hb.2.2.1, wfW_subW _ hb.2.2.2⟩

theorem wfW_rsubW (w : W4) (hw : wfW w) : wfW (rsubW w) :=
  ⟨wf_reverse_lookup _ hw.1, wf_reverse_lookup _ hw.2.1,
   wf_reverse_lookup _ hw.2.2.1, wf_reverse_lookup _ hw.2.2.2⟩

theorem wfB_invsub (b : Blk) (hb : wfB b) : wfB (inv_sub_bytes b) :=
  ⟨wfW_rsubW _ hb.1, wfW_rsubW _ hb.2.1, wfW_rsubW _ hb.2.2.1, wfW_rsubW _ hb.2.2.2⟩

theorem wfB_shift (b : Blk) (hb : wfB b) : wfB (shift_rows b) := by
  obtain ⟨⟨a, b1, c, d⟩, ⟨e, f, g, h⟩, ⟨i, j, k, l⟩, ⟨m, n, o, p⟩⟩ := hb
  exact ⟨⟨a, f, k, p⟩, ⟨e, j, o, d⟩, ⟨i, n, c, h⟩, ⟨m, b1, g, l⟩⟩

theorem wfB_invshift (b : Blk) (hb : wfB b) : wfB (inv_shift_rows b) := by
  obtain ⟨⟨a, b1, c, d⟩, ⟨e, f, g, h⟩, ⟨i, j, k, l⟩, ⟨m, n, o, p⟩⟩ := hb
  exact ⟨⟨a, n, k, h⟩, ⟨e, b1, o, l⟩, ⟨i, f, c, p⟩, ⟨m, j, g, d⟩⟩

theorem wf_mixEntryF (i : Fin 4) (w : W4) (hw : wfW w) : mixEntryF i w < 256 := by
  obtain ⟨h0, h1, h2, h3⟩ := hw
  simp only [mixEntryF]
  exact xor_lt_256 _ (xor_lt_256 _ (xor_lt_256 _ (xor_lt_256 _ (by omega) _
    (wf_gmul _ (validMul_MIX i 0) _ h0)) _ (wf_gmul _ (validMul_MIX i 1) _ h1)) _
    (wf_gmul _ (validMul_MIX i 2) _ h2)) _ (wf_gmul _ (validMul_MIX i 3) _ h3)

theorem wf_invMixEntryF (i : Fin 4) (w : W4) (hw : wfW w) : invMixEntryF i w < 256 := by
  obtain ⟨h0, h1, h2, h3⟩ := hw
  simp only [invMixEntryF]
  exact xor_lt_256 _ (xor_lt_256 _ (xor_lt_256 _ (xor_lt_256 _ (by omega) _
    (wf_gmul _ (validMul_INV i 0) _ h0)) _ (wf_gmul _ (validMul_INV i 1) _ h1)) _
    (wf_gmul _ (validMul_INV i 2) _ h2)) _ (wf_gmul _ (validMul_INV i 3) _ h3)

theorem wfW_mixW (w : W4) (hw : wfW w) : wfW (mixW w) :=
  ⟨wf_mixEntryF 0 w hw, wf_mixEntryF 1 w hw, wf_mixEntryF 2 w hw, wf_mixEntryF 3 w hw⟩

theorem wfB_mix (b : Blk) (hb : wfB b) : wfB (mix_columns b) :=
  ⟨wfW_mixW _ hb.1, wfW_mixW _ hb.2.1, wfW_mixW _ hb.2.2.1, wfW_mixW _ hb.2.2.2⟩

theorem wfW_invMixW (w : W4) (hw : wfW w) : wfW (invMixW w) :=
  ⟨wf_invMixEntryF 0 w hw, wf_invMixEntryF 1 w hw, wf_invMixEntryF 2 w hw, wf_invMixEntryF 3 w hw⟩

theorem wfB_invmix (b : Blk) (hb : wfB b) : wfB (inv_mix_columns b) :=
  ⟨wfW_invMixW _ hb.1, wfW_invMixW _ hb.2.1, wfW_invMixW _ hb.2.2.1, wfW_invMixW _ hb.2.2.2⟩

theorem wfB_enc_round (k b : Blk) (hk : wfB k) (hb : wfB b) : wfB (enc_round k b) :=
  wfB_ark _ _ hk (wfB_mix _ (wfB_shift _ (wfB_sub _ hb)))

/-- One column of inv_mix_columns of mix_columns, on a well-formed column:
expand by linearity, regroup, and apply the orthogonality of the two
diffusion matrices. -/
theorem invMixEntry_mixW (i : Fin 4) (w : W4) (hw : wfW w) :
    invMixEntryF i (mixW w) = [w.b0, w.b1, w.b2, w.b3].getD i.val 0 := by
  obtain ⟨h0, h1, h2, h3⟩ := hw
  have q00 : gmul (MIX_MATRIX 0 0) w.b0 < 256 := wf_gmul _ (validMul_MIX 0 0) _ h0
  have q01 : gmul (MIX_MATRIX 0 1) w.b1 < 256 := wf_gmul _ (validMul_MIX 0 1) _ h1
  have q02 : gmul (MIX_MATRIX 0 2) w.b2 < 256 := wf_gmul _ (validMul_MIX 0 2) _ h2
  have q03 : gmul (MIX_MATRIX 0 3) w.b3 < 256 := wf_gmul _ (validMul_MIX 0 3) _ h3
  have q10 : gmul (MIX_MATRIX 1 0) w.b0 < 256 := wf_gmul _ (validMul_MIX 1 0) _ h0
  have q11 : gmul (MIX_MATRIX 1 1) w.b1 < 256 := wf_gmul _ (validMul_MIX 1 1) _ h1
  have q12 : gmul (MIX_MATRIX 1 2) w.b2 < 256 := wf_gmul _ (validMul_MIX 1 2) _ h2
  have q13 : gmul (MIX_MATRIX 1 3) w.b3 < 256 := wf_gmul _ (validMul_MIX 1 3) _ h3
  have q20 : gmul (MIX_MATRIX 2 0) w.b0 < 256 := wf_gmul _ (validMul_MIX 2 0) _ h0
  have q21 : gmul (MIX_MATRIX 2 1) w.b1 < 256 := wf_gmul _ (validMul_MIX 2 1) _ h1
  have q22 : gmul (MIX_MATRIX 2 2) w.b2 < 256 := wf_gmul _ (validMul_MIX 2 2) _ h2
  have q23 : gmul (MIX_MATRIX 2 3) w.b3 < 256 := wf_gmul _ (validMul_MIX 2 3) _ h3
  have q30 : gmul (MIX_MATRIX 3 0) w.b0 < 256 := wf_gmul _ (validMul_MIX 3 0) _ h0
  have q31 : gmul (MIX_MATRIX 3 1) w.b1 < 256 := wf_gmul _ (validMul_MIX 3 1) _ h1
  have q32 : gmul (MIX_MATRIX 3 2) w.b2 < 256 := wf_gmul _ (validMul_MIX 3 2) _ h2
  have q33 : gmul (MIX_MATRIX 3 3) w.b3 < 256 := wf_gmul _ (validMul_MIX 3 3) _ h3
  simp only [invMixEntryF, mixW, mixEntryF, Nat.zero_xor]
  rw [gmul_linear4 _ _ _ _ _ (validMul_INV i 0) q00 q01 q02 q03,
    gmul_linear4 _ _ _ _ _ (validMul_INV i 1) q10 q11 q12 q13,
    gmul_linear4 _ _ _ _ _ (validMul_INV i 2) q20 q21 q22 q23,
    gmul_linear4 _ _ _ _ _ (validMul_INV i 3) q30 q31 q32 q33]
  calc (gmul (INV_MIX_MATRIX i 0) (gmul (MIX_MATRIX 0 0) w.b0)
          ^^^ gmul (INV_MIX_MATRIX i 0) (gmul (MIX_MATRIX 0 1) w.b1)
          ^^^ gmul (INV_MIX_MATRIX i 0) (gmul (MIX_MATRIX 0 2) w.b2)
          ^^^ gmul (INV_MIX_MATRIX i 0) (gmul (MIX_MATRIX 0 3) w.b3))
        ^^^ (gmul (INV_MIX_MATRIX i 1) (gmul (MIX_MATRIX 1 0) w.b0)
          ^^^ gmul (INV_MIX_MATRIX i 1) (gmul (MIX_MATRIX 1 1) w.b1)
          ^^^ gmul (INV_MIX_MATRIX i 1) (gmul (MIX_MATRIX 1 2) w.b2)
          ^^^ gmul (INV_MIX_MATRIX i 1) (gmul (MIX_MATRIX 1 3) w.b3))
        ^^^ (gmul (INV_MIX_MATRIX i 2) (gmul (MIX_MATRIX 2 0) w.b0)
          ^^^ gmul (INV_MIX_MATRIX i 2) (gmul (MIX_MATRIX 2 1) w.b1)
          ^^^ gmul (INV_MIX_MATRIX i 2) (gmul (MIX_MATRIX 2 2) w.b2)
          ^^^ gmul (INV_MIX_MATRIX i 2) (gmul (MIX_MATRIX 2 3) w.b3))
        ^^^ (gmul (INV_MIX_MATRIX i 3) (gmul (MIX_MATRIX 3 0) w.b0)
          ^^^ gmul (INV_MIX_MATRIX i 3) (gmul (MIX_MATRIX 3 1) w.b1)
          ^^^ gmul (INV_MIX_MATRIX i 3) (gmul (MIX_MATRIX 3 2) w.b2)
          ^^^ gmul (INV_MIX_MATRIX i 3) (gmul (MIX_MATRIX 3 3) w.b3))
      = (gmul (INV_MIX_MATRIX i 0) (gmul (MIX_MATRIX 0 0) w.b0)
          ^^^ gmul (INV_MIX_MATRIX i 1) (gmul (MIX_MATRIX 1 0) w.b0)
          ^^^ gmul (INV_MIX_MATRIX i 2) (gmul (MIX_MATRIX 2 0) w.b0)
          ^^^ gmul (INV_MIX_MATRIX i 3) (gmul (MIX_MATRIX 3 0) w.b0))
        ^^^ (gmul (INV_MIX_MATRIX i 0) (gmul (MIX_MATRIX 0 1) w.b1)
          ^^^ gmul (INV_MIX_MATRIX i 1) (gmul (MIX_MATRIX 1 1) w.b1)
          ^^^ gmul (INV_MIX_MATRIX i 2) (gmul (MIX_MATRIX 2 1) w.b1)
          ^^^ gmul (INV_MIX_MATRIX i 3) (gmul (MIX_MATRIX 3 1) w.b1))
        ^^^ (gmul (INV_MIX_MATRIX i 0) (gmul (MIX_MATRIX 0 2) w.b2)
          ^^^ gmul (INV_MIX_MATRIX i 1) (gmul (MIX_MATRIX 1 2) w.b2)
          ^^^ gmul (INV_MIX_MATRIX i 2) (gmul (MIX_MATRIX 2 2) w.b2)
          ^^^ gmul (INV_MIX_MATRIX i 3) (gmul (MIX_MATRIX 3 2) w.b2))
        ^^^ (gmul (INV_MIX_MATRIX i 0) (gmul (MIX_MATRIX 0 3) w.b3)
          ^^^ gmul (INV_MIX_MATRIX i 1) (gmul (MIX_MATRIX 1 3) w.b3)
          ^^^ gmul (INV_MIX_MATRIX i 2) (gmul (MIX_MATRIX 2 3) w.b3)
          ^^^ gmul (INV_MIX_MATRIX i 3) (gmul (MIX_MATRIX 3 3) w.b3)) := by ac_rfl
    _ = (if i = 0 then w.b0 else 0) ^^^ (if i = 1 then w.b1 else 0)
          ^^^ (if i = 2 then w.b2 else 0) ^^^ (if i = 3 then w.b3 else 0) := by
        rw [mix_orthogonal i 0 _ h0, mix_orthogonal i 1 _ h1,
          mix_orthogonal i 2 _ h2, mix_orthogonal i 3 _ h3]
    _ = [w.b0, w.b1, w.b2, w.b3].getD i.val 0 := by
        fin_cases i <;> simp [List.getD]

theorem invMixW_mixW (w : W4) (hw : wfW w) : invMixW (mixW w) = w := by
  have e0 := invMixEntry_mixW 0 w hw
  have e1 := invMixEntry_mixW 1 w hw
  have e2 := invMixEntry_mixW 2 w hw
  have e3 := invMixEntry_mixW 3 w hw
  simp [show ((3 : Fin 4) : Nat) = 3 from rfl] at e0 e1 e2 e3
  simp only [invMixW]
  rw [e0, e1, e2, e3]

/-- inv_mix_columns undoes mix_columns on well-formed states. -/
theorem invmix_mix (b : Blk) (hb : wfB b) : inv_mix_columns (mix_columns b) = b := by
  obtain ⟨h0, h1, h2, h3⟩ := hb
  simp only [mix_columns, inv_mix_columns]
  rw [invMixW_mixW _ h0, invMixW_mixW _ h1, invMixW_mixW _ h2, invMixW_mixW _ h3]

/-- One decryption round undoes the matching encryption round on well-formed
states. -/
theorem dec_enc_round (k : Blk) (x : Blk) (hx : wfB x) : dec_round k (enc_round k x) = x := by
  simp only [enc_round, dec_round]
  rw [ark_ark, invmix_mix _ (wfB_shift _ (wfB_sub _ hx)), invshift_shift, invsub_sub _ hx]

/-- The inverse block transform undoes the forward block transform for every
well-formed round-key schedule and every well-formed state. -/
theorem decrypt_encrypt_block_wf (ks : Nat → Blk) (hk : ∀ n, wfB (ks n)) (b : Blk)
    (hb : wfB b) : decrypt_block ks (encrypt_block ks b) = b := by
  have h0 : wfB (add_round_key (ks 0) b) := wfB_ark _ _ (hk 0) hb
  have h1 := wfB_enc_round (ks 1) _ (hk 1) h0
  have h2 := wfB_enc_round (ks 2) _ (hk 2) h1
  have h3 := wfB_enc_round (ks 3) _ (hk 3) h2
  have h4 := wfB_enc_round (ks 4) _ (hk 4) h3
  have h5 := wfB_enc_round (ks 5) _ (hk 5) h4
  have h6 := wfB_enc_round (ks 6) _ (hk 6) h5
  have h7 := wfB_enc_round (ks 7) _ (hk 7) h6
  have h8 := wfB_enc_round (ks 8) _ (hk 8) h7
  have h9 := wfB_enc_round (ks 9) _ (hk 9) h8
  simp only [encrypt_block, decrypt_block]
  rw [ark_ark, invshift_shift, invsub_sub _ h9, dec_enc_round _ _ h8, dec_enc_round _ _ h7,
    dec_enc_round _ _ h6, dec_enc_round _ _ h5, dec_enc_round _ _ h4, dec_enc_round _ _ h3,
    dec_enc_round _ _ h2, dec_enc_round _ _ h1, dec_enc_round _ _ h0, ark_ark]

theorem wf_getD_256 (l : List Nat) (hl : wfL l) (i : Nat) : l.getD i 0 < 256 := by
  rw [List.getD_eq_getElem?_getD]
  rcases h : l[i]? with _ | x
  · simp
  · simpa using hl x (List.getElem?_mem h)

theorem wfL_RC : wfL RC := by decide

theorem wf_round_constant_all (r : Nat) : round_constant r < 256 := by
  unfold round_constant
  exact wf_getD_256 RC wfL_RC r

theorem wfB_keys0 (key : List Nat) (hk : wfL key) : wfB (keys0 key) := by
  refine ⟨⟨?_, ?_, ?_, ?_⟩, ⟨?_, ?_, ?_, ?_⟩, ⟨?_, ?_, ?_, ?_⟩, ⟨?_, ?_, ?_, ?_⟩⟩ <;>
    exact wf_getD_256 key hk _

theorem wfB_next_round_key (prev : Blk) (r : Nat) (hp : wfB prev) :
    wfB (next_round_key prev r) := by
  obtain ⟨⟨p00, p01, p02, p03⟩, hp1, hp2, hp3⟩ := hp
  obtain ⟨p30, p31, p32, p33⟩ := hp3
  simp only [next_round_key]
  have hw0 : wfW ⟨prev.c0.b0 ^^^ (lookup prev.c3.b1 ^^^ round_constant r),
      prev.c0.b1 ^^^ lookup prev.c3.b2, prev.c0.b2 ^^^ lookup prev.c3.b3,
      prev.c0.b3 ^^^ lookup prev.c3.b0⟩ :=
    ⟨xor_lt_256 _ p00 _ (xor_lt_256 _ (wf_lookup _ p31) _ (wf_round_constant_all r)),
     xor_lt_256 _ p01 _ (wf_lookup _ p32),
     xor_lt_256 _ p02 _ (wf_lookup _ p33),
     xor_lt_256 _ p03 _ (wf_lookup _ p30)⟩
  exact ⟨hw0, wfW_xorW _ _ hw0 hp1, wfW_xorW _ _ (wfW_xorW _ _ hw0 hp1) hp2,
    wfW_xorW _ _ (wfW_xorW _ _ (wfW_xorW _ _ hw0 hp1) hp2) ⟨p30, p31, p32, p33⟩⟩

/-- Every round key expanded from a well-formed key is well-formed. -/
theorem wf_expand_key (key : List Nat) (hk : wfL key) : ∀ n, wfB (expand_key key n) := by
  intro n
  induction n with
  | zero => exact wfB_keys0 key hk
  | succ n ih => exact wfB_next_round_key _ n ih

/-- Closed form of the zero-padding loop: with enough fuel it appends exactly
the number of zeros needed to reach the next multiple of 16. -/
theorem pad_zeros_eq : ∀ (fuel : Nat) (l : List Nat),
    (16 - l.length % 16) % 16 ≤ fuel →
    pad_zeros fuel l = l ++ List.replicate ((16 - l.length % 16) % 16) 0 := by
  intro fuel
  induction fuel with
  | zero =>
    intro l h
    have h0 : (16 - l.length % 16) % 16 = 0 := by omega
    simp [pad_zeros, h0]
  | succ fuel ih =>
    intro l h
    by_cases h0 : l.length % 16 = 0
    · simp [pad_zeros, h0, show (16 - 0) % 16 = 0 from by omega]
    · have hrec := ih (l ++ [0]) (by
        simp only [List.length_append, List.length_cons, List.length_nil]
        omega)
      simp only [pad_zeros, h0, if_neg h0, hrec, List.length_append, List.length_cons,
        List.length_nil]
      have hcount : (16 - (l.length + 0 + 1) % 16) % 16 + 1 = (16 - l.length % 16) % 16 := by
        omega
      rw [List.append_assoc]
      rw [show [(0 : Nat)] ++ List.replicate ((16 - (l.length + 0 + 1) % 16) % 16) 0
          = List.replicate ((16 - (l.length + 0 + 1) % 16) % 16 + 1) 0 from rfl]
      rw [hcount]
      simp

/-- pad appends the marker byte then zeros up to the next multiple of 16. -/
theorem pad_eq (message : List Nat) :
    pad message = message
      ++ 0x80 :: List.replicate ((16 - (message.length + 1) % 16) % 16) 0 := by
  unfold pad pad_fill
  rw [pad_zeros_eq 16 _ (by omega)]
  simp [List.append_assoc]

theorem pad_length (message : List Nat) :
    (pad message).length = message.length + 1 + (16 - (message.length + 1) % 16) % 16 := by
  rw [pad_eq]
  simp
  omega

theorem pad_length_mod (message : List Nat) : (pad message).length % 16 = 0 := by
  rw [pad_length]
  omega

theorem wfL_pad (message : List Nat) (h : wfL message) : wfL (pad message) := by
  rw [pad_eq]
  intro x hx
  rcases List.mem_append.mp hx with hx | hx
  · exact h x hx
  · rcases List.mem_cons.mp hx with rfl | hx
    · omega
    · rcases (List.mem_replicate.mp hx).2 with rfl
      omega

theorem make_blocks_go_nil (fuel : Nat) : make_blocks_go fuel [] = [] := by
  cases fuel <;> simp [make_blocks_go]

/-- The block-chunking loop does not depend on the fuel once the fuel covers
the list length. -/
theorem make_blocks_go_congr : ∀ (n fuel1 fuel2 : Nat) (l : List Nat),
    l.length = n → n ≤ fuel1 → n ≤ fuel2 →
    make_blocks_go fuel1 l = make_blocks_go fuel2 l := by
  intro n
  induction n using Nat.strong_induction_on with
  | _ n ih =>
    intro fuel1 fuel2 l hl h1 h2
    cases l with
    | nil => rw [make_blocks_go_nil, make_blocks_go_nil]
    | cons a t =>
      have hn : 0 < n := by simp at hl; omega
      cases fuel1 with
      | zero => omega
      | succ f1 =>
        cases fuel2 with
        | zero => omega
        | succ f2 =>
          have hd : ((a :: t).drop 16).length = n - 16 := by
            simp only [List.length_drop, List.length_cons]
            simp at hl
            omega
          have hlt : n - 16 < n := by omega
          have hf1 : n - 16 ≤ f1 := by omega
          have hf2 : n - 16 ≤ f2 := by omega
          simp only [make_blocks_go, List.isEmpty_cons, Bool.false_eq_true, if_false]
          rw [ih (n - 16) hlt f1 f2 _ hd hf1 hf2]

/-- One-step unfolding of make_blocks. -/
theorem make_blocks_eq (l : List Nat) :
    make_blocks l = if l.isEmpty then [] else mkBlock (l.take 16) :: make_blocks (l.drop 16) := by
  cases l with
  | nil => simp [make_blocks, make_blocks_go]
  | cons a t =>
    simp only [make_blocks, List.length_cons, make_blocks_go, List.isEmpty_cons,
      Bool.false_eq_true, if_false]
    rw [make_blocks_go_congr ((a :: t).drop 16).length t.length _ _ rfl
      (by simp only [List.length_drop, List.length_cons]; omega) le_rfl]

/-- Flattening a loaded 16-byte chunk returns the chunk. -/
theorem block_bytes_mkBlock : ∀ c : List Nat, c.length = 16 → block_bytes (mkBlock c) = c := by
  intro c h
  rcases c with _ | ⟨x0, c⟩; · simp at h
  rcases c with _ | ⟨x1, c⟩; · simp at h
  rcases c with _ | ⟨x2, c⟩; · simp at h
  rcases c with _ | ⟨x3, c⟩; · simp at h
  rcases c with _ | ⟨x4, c⟩; · simp at h
  rcases c with _ | ⟨x5, c⟩; · simp at h
  rcases c with _ | ⟨x6, c⟩; · simp at h
  rcases c with _ | ⟨x7, c⟩; · simp at h
  rcases c with _ | ⟨x8, c⟩; · simp at h
  rcases c with _ | ⟨x9, c⟩; · simp at h
  rcases c with _ | ⟨x10, c⟩; · simp at h
  rcases c with _ | ⟨x11, c⟩; · simp at h
  rcases c with _ | ⟨x12, c⟩; · simp at h
  rcases c with _ | ⟨x13, c⟩; · simp at h
  rcases c with _ | ⟨x14, c⟩; · simp at h
  rcases c with _ | ⟨x15, c⟩; · simp at h
  rcases c with _ | ⟨x16, c⟩
  · rfl
  · simp at h

/-- Loading the flattening of a state gives the state back. -/
theorem mkBlock_block_bytes (b : Blk) : mkBlock (block_bytes b) = b := rfl

/-- Re-blocking a flattened block list gives the block list back. -/
theorem make_blocks_join : ∀ bs : List Blk, make_blocks (join_blocks bs) = bs := by
  intro bs
  induction bs with
  | nil => simp [join_blocks, make_blocks, make_blocks_go]
  | cons b bs ih =>
    rw [show join_blocks (b :: bs) = block_bytes b ++ join_blocks bs from rfl, make_blocks_eq]
    rw [List.take_left' (show (block_bytes b).length = 16 from rfl),
      List.drop_left' (show (block_bytes b).length = 16 from rfl)]
    rw [mkBlock_block_bytes, ih]
    simp [block_bytes]

/-- Flattening the blocks of a 16-divisible byte list gives the list back. -/
theorem join_make : ∀ (n : Nat) (l : List Nat), l.length = n → l.length % 16 = 0 →
    join_blocks (make_blocks l) = l := by
  intro n
  induction n using Nat.strong_induction_on with
  | _ n ih =>
    intro l hl hmod
    rw [make_blocks_eq]
    cases l with
    | nil => simp [join_blocks]
    | cons a t =>
      have hlen : 16 ≤ (a :: t).length := by
        simp only [List.length_cons] at hmod ⊢
        omega
      have hn : 0 < n := by simp at hl; omega
      simp only [List.isEmpty_cons, Bool.false_eq_true, if_false]
      rw [show join_blocks (mkBlock ((a :: t).take 16) :: make_blocks ((a :: t).drop 16))
          = block_bytes (mkBlock ((a :: t).take 16)) ++ join_blocks (make_blocks ((a :: t).drop 16))
          from rfl]
      rw [block_bytes_mkBlock _ (by simp only [List.length_take]; omega)]
      rw [ih ((a :: t).drop 16).length
        (by simp only [List.length_drop]; omega) _ rfl
        (by simp only [List.length_drop, List.length_cons] at hmod ⊢; omega)]
      exact List.take_append_drop 16 (a :: t)

theorem wfB_mkBlock (c : List Nat) (hc : wfL c) : wfB (mkBlock c) := by
  refine ⟨⟨?_, ?_, ?_, ?_⟩, ⟨?_, ?_, ?_, ?_⟩, ⟨?_, ?_, ?_, ?_⟩, ⟨?_, ?_, ?_, ?_⟩⟩ <;>
    exact wf_getD_256 c hc _

/-- Every block produced by make_blocks from a well-formed byte list is
well-formed. -/
theorem wfB_make_blocks : ∀ (n : Nat) (l : List Nat), l.length = n → wfL l →
    ∀ b ∈ make_blocks l, wfB b := by
  intro n
  induction n using Nat.strong_induction_on with
  | _ n ih =>
    intro l hl hwf b hb
    rw [make_blocks_eq] at hb
    cases l with
    | nil => simp at hb
    | cons a t =>
      simp only [List.isEmpty_cons, Bool.false_eq_true, if_false, List.mem_cons] at hb
      rcases hb with rfl | hb
      · exact wfB_mkBlock _ (fun x hx => hwf x (List.take_subset 16 _ hx))
      · have hn : 0 < n := by simp at hl; omega
        exact ih ((a :: t).drop 16).length (by simp only [List.length_drop]; omega) _ rfl
          (fun x hx => hwf x (List.drop_subset 16 _ hx)) b hb

/-- Mapping decrypt_block over encrypted well-formed blocks recovers them. -/
theorem map_dec_enc (ks : Nat → Blk) (hk : ∀ n, wfB (ks n)) :
    ∀ bs : List Blk, (∀ b ∈ bs, wfB b) →
    (bs.map (encrypt_block ks)).map (decrypt_block ks) = bs := by
  intro bs
  induction bs with
  | nil => simp
  | cons b bs ih =>
    intro h
    simp only [List.map_cons, List.cons.injEq]
    exact ⟨decrypt_encrypt_block_wf ks hk b (h b (by simp)),
      ih (fun x hx => h x (by simp [hx]))⟩

theorem findIdx?_marker : ∀ (pre post : List Nat) (i : Nat),
    (∀ x ∈ pre, (x == 0x80) = false) →
    (pre ++ 0x80 :: post).findIdx? (fun n => n == 0x80) i = some (pre.length + i) := by
  intro pre
  induction pre with
  | nil => intro post i h; simp
  | cons a pre ih =>
    intro post i h
    have ha : (a == 0x80) = false := h a (by simp)
    simp only [List.cons_append, List.findIdx?_cons, ha, Bool.false_eq_true, if_false]
    rw [ih post (i + 1) (fun x hx => h x (by simp [hx]))]
    simp only [List.length_cons, Option.some.injEq]
    omega

theorem findIdx?_no_marker : ∀ (l : List Nat) (i : Nat),
    (∀ x ∈ l, (x == 0x80) = false) →
    l.findIdx? (fun n => n == 0x80) i = none := by
  intro l
  induction l with
  | nil => intro i h; simp
  | cons a t ih =>
    intro i h
    have ha : (a == 0x80) = false := h a (by simp)
    simp only [List.findIdx?_cons, ha, Bool.false_eq_true, if_false]
    exact ih (i + 1) (fun x hx => h x (by simp [hx]))

theorem no_marker_pred (l : List Nat) (h : 0x80 ∉ l) : ∀ x ∈ l, (x == 0x80) = false := by
  intro x hx
  simp only [beq_eq_false_iff_ne]
  intro e
  exact h (e ▸ hx)

/-- depad truncates strictly before the first marker byte. -/
theorem depad_append_marker (pre post : List Nat) (h : 0x80 ∉ pre) :
    depad (pre ++ 0x80 :: post) = pre := by
  unfold depad
  rw [findIdx?_marker pre post 0 (no_marker_pred pre h)]
  rw [Nat.add_zero]
  exact List.take_left pre (0x80 :: post)

/-- depad returns marker-free byte lists unchanged. -/
theorem depad_no_marker (l : List Nat) (h : 0x80 ∉ l) : depad l = l := by
  unfold depad
  rw [findIdx?_no_marker l 0 (no_marker_pred l h)]

/-- The byte-level decrypt of the byte-level encrypt is depad of pad, for any
well-formed schedule and message. -/
theorem decrypt_bytes_encrypt_bytes (ks : Nat → Blk) (hk : ∀ n, wfB (ks n))
    (msg : List Nat) (hm : wfL msg) :
    decrypt_bytes ks (encrypt_bytes ks msg) = depad (pad msg) := by
  unfold encrypt_bytes decrypt_bytes
  rw [make_blocks_join, map_dec_enc ks hk _
    (wfB_make_blocks (pad msg).length (pad msg) rfl (wfL_pad msg hm)),
    join_make (pad msg).length (pad msg) rfl (pad_length_mod msg)]

theorem join_blocks_length : ∀ bs : List Blk, (join_blocks bs).length = 16 * bs.length := by
  intro bs
  induction bs with
  | nil => rfl
  | cons b bs ih =>
    rw [show join_blocks (b :: bs) = block_bytes b ++ join_blocks bs from rfl]
    simp only [List.length_append, ih, List.length_cons]
    simp [block_bytes]
    ring

theorem make_blocks_length : ∀ (n : Nat) (l : List Nat), l.length = n →
    (make_blocks l).length = (l.length + 15) / 16 := by
  intro n
  induction n using Nat.strong_induction_on with
  | _ n ih =>
    intro l hl
    rw [make_blocks_eq]
    cases l with
    | nil => simp
    | cons a t =>
      have hn : 0 < n := by simp at hl; omega
      simp only [List.isEmpty_cons, Bool.false_eq_true, if_false, List.length_cons]
      rw [ih ((a :: t).drop 16).length (by simp only [List.length_drop]; omega) _ rfl]
      simp only [List.length_drop, List.length_cons]
      omega

theorem encrypt_bytes_length (ks : Nat → Blk) (msg : List Nat) :
    (encrypt_bytes ks msg).length = 16 * ((msg.length + 1 + 15) / 16) := by
  unfold encrypt_bytes
  rw [join_blocks_length, List.length_map,
    make_blocks_length (pad msg).length (pad msg) rfl, pad_length]
  omega

/-- Zero-extending a chunk does not change the loaded state (missing bytes of
a short chunk default to 0 anyway). -/
theorem getD_append_replicate_zero (c : List Nat) (k i : Nat) :
    (c ++ List.replicate k 0).getD i 0 = c.getD i 0 := by
  rw [List.getD_eq_getElem?_getD, List.getD_eq_getElem?_getD]
  rcases Nat.lt_or_ge i c.length with h | h
  · rw [List.getElem?_append_left h]
  · rw [List.getElem?_append_right h, List.getElem?_eq_none h, List.getElem?_replicate]
    rcases Nat.lt_or_ge (i - c.length) k with h2 | h2
    · simp [h2]
    · simp [Nat.not_lt.mpr h2]

theorem mkBlock_append_replicate_zero (c : List Nat) (k : Nat) :
    mkBlock (c ++ List.replicate k 0) = mkBlock c := by
  simp only [mkBlock, getD_append_replicate_zero]

/-- make_blocks zero-extends the trailing partial chunk: appending the zeros
that would complete the last block changes nothing. -/
theorem make_blocks_append_zeros : ∀ (n : Nat) (d : List Nat), d.length = n →
    make_blocks (d ++ List.replicate ((16 - d.length % 16) % 16) 0) = make_blocks d := by
  intro n
  induction n using Nat.strong_induction_on with
  | _ n ih =>
    intro d hl
    cases d with
    | nil => simp
    | cons a t =>
      rcases Nat.lt_or_ge (a :: t).length 16 with hshort | hlong
      · rw [make_blocks_eq, make_blocks_eq (a :: t)]
        have hk : (a :: t).length + (16 - (a :: t).length % 16) % 16 = 16 := by
          simp only [List.length_cons] at hshort ⊢
          omega
        simp only [List.isEmpty_cons, List.isEmpty_eq_true, List.append_eq_nil,
          List.cons_ne_nil, false_and, if_false, Bool.false_eq_true]
        rw [List.take_of_length_le (by simp only [List.length_append, List.length_replicate]; omega),
          List.take_of_length_le (by omega),
          List.drop_of_length_le (by simp only [List.length_append, List.length_replicate]; omega),
          List.drop_of_length_le (by omega)]
        rw [mkBlock_append_replicate_zero]
      · rw [make_blocks_eq, make_blocks_eq (a :: t)]
        have hn : 0 < n := by simp at hl; omega
        simp only [List.isEmpty_cons, List.isEmpty_eq_true, List.append_eq_nil,
          List.cons_ne_nil, false_and, if_false, Bool.false_eq_true]
        rw [List.take_append_of_le_length hlong, List.drop_append_of_le_length hlong]
        have hmod : ((a :: t).drop 16).length % 16 = (a :: t).length % 16 := by
          simp only [List.length_drop]
          omega
        rw [← hmod]
        exact congrArg _ (ih ((a :: t).drop 16).length
          (by
            simp only [List.length_drop, List.length_cons]
            simp only [List.length_cons] at hl
            omega) _ rfl)

theorem lookup?_some : ∀ b, b < 256 → lookup? b = some (lookup b) := by decide

theorem reverse_lookup?_some : ∀ b, b < 256 → reverse_lookup? b = some (reverse_lookup b) := by
  decide

theorem round_constant?_some : ∀ r, r < 22 → round_constant? r = some (round_constant r) := by
  decide



theorem subW?_some (w : W4) (hw : wfW w) : subW? w = some (subW w) := by
  obtain ⟨h0, h1, h2, h3⟩ := hw
  simp only [subW?, subW, lookup?_some _ h0, lookup?_some _ h1, lookup?_some _ h2,
    lookup?_some _ h3]

theorem sub_bytes?_some (b : Blk) (hb : wfB b) : sub_bytes? b = some (sub_bytes b) := by
  obtain ⟨h0, h1, h2, h3⟩ := hb
  simp only [sub_bytes?, sub_bytes, subW?_some _ h0, subW?_some _ h1, subW?_some _ h2,
    subW?_some _ h3]

theorem rsubW?_some (w : W4) (hw : wfW w) : rsubW? w = some (rsubW w) := by
  obtain ⟨h0, h1, h2, h3⟩ := hw
  simp only [rsubW?, rsubW, reverse_lookup?_some _ h0, reverse_lookup?_some _ h1,
    reverse_lookup?_some _ h2, reverse_lookup?_some _ h3]

theorem inv_sub_bytes?_some (b : Blk) (hb : wfB b) : inv_sub_bytes? b = some (inv_sub_bytes b) := by
  obtain ⟨h0, h1, h2, h3⟩ := hb
  simp only [inv_sub_bytes?, inv_sub_bytes, rsubW?_some _ h0, rsubW?_some _ h1,
    rsubW?_some _ h2, rsubW?_some _ h3]

theorem mixEntryF?_some (i : Fin 4) (w : W4) (hw : wfW w) :
    mixEntryF? i w = some (mixEntryF i w) := by
  obtain ⟨h0, h1, h2, h3⟩ := hw
  simp only [mixEntryF?, mixEntryF,
    gmul?_some _ (validMul_MIX i 0) _ h0, gmul?_some _ (validMul_MIX i 1) _ h1,
    gmul?_some _ (validMul_MIX i 2) _ h2, gmul?_some _ (validMul_MIX i 3) _ h3]

theorem mixW?_some (w : W4) (hw : wfW w) : mixW? w = some (mixW w) := by
  simp only [mixW?, mixW, mixEntryF?_some 0 w hw, mixEntryF?_some 1 w hw,
    mixEntryF?_some 2 w hw, mixEntryF?_some 3 w hw]

theorem mix_columns?_some (b : Blk) (hb : wfB b) : mix_columns? b = some (mix_columns b) := by
  obtain ⟨h0, h1, h2, h3⟩ := hb
  simp only [mix_columns?, mix_columns, mixW?_some _ h0, mixW?_some _ h1, mixW?_some _ h2,
    mixW?_some _ h3]

theorem invMixEntryF?_some (i : Fin 4) (w : W4) (hw : wfW w) :
    invMixEntryF? i w = some (invMixEntryF i w) := by
  obtain ⟨h0, h1, h2, h3⟩ := hw
  simp only [invMixEntryF?, invMixEntryF,
    gmul?_some _ (validMul_INV i 0) _ h0, gmul?_some _ (validMul_INV i 1) _ h1,
    gmul?_some _ (validMul_INV i 2) _ h2, gmul?_some _ (validMul_INV i 3) _ h3]

theorem invMixW?_some (w : W4) (hw : wfW w) : invMixW? w = some (invMixW w) := by
  simp only [invMixW?, invMixW, invMixEntryF?_some 0 w hw, invMixEntryF?_some 1 w hw,
    invMixEntryF?_some 2 w hw, invMixEntryF?_some 3 w hw]

theorem inv_mix_columns?_some (b : Blk) (hb : wfB b) :
    inv_mix_columns? b = some (inv_mix_columns b) := by
  obtain ⟨h0, h1, h2, h3⟩ := hb
  simp only [inv_mix_columns?, inv_mix_columns, invMixW?_some _ h0, invMixW?_some _ h1,
    invMixW?_some _ h2, invMixW?_some _ h3]

theorem enc_round?_some (k b : Blk) (hb : wfB b) : enc_round? k b = some (enc_round k b) := by
  simp only [enc_round?, enc_round, sub_bytes?_some b hb, Option.some_bind,
    mix_columns?_some _ (wfB_shift _ (wfB_sub _ hb))]

theorem wfB_dec_round (k b : Blk) (hk : wfB k) (hb : wfB b) : wfB (dec_round k b) :=
  wfB_invsub _ (wfB_invshift _ (wfB_invmix _ (wfB_ark _ _ hk hb)))

theorem dec_round?_some (k b : Blk) (hk : wfB k) (hb : wfB b) :
    dec_round? k b = some (dec_round k b) := by
  simp only [dec_round?, dec_round, inv_mix_columns?_some _ (wfB_ark _ _ hk hb),
    Option.some_bind, inv_sub_bytes?_some _ (wfB_invshift _ (wfB_invmix _ (wfB_ark _ _ hk hb)))]

/-- encrypt_block never reaches a panic on well-formed inputs. -/
theorem encrypt_block?_some (ks : Nat → Blk) (hk : ∀ n, wfB (ks n)) (b : Blk) (hb : wfB b) :
    encrypt_block? ks b = some (encrypt_block ks b) := by
  have h0 : wfB (add_round_key (ks 0) b) := wfB_ark _ _ (hk 0) hb
  have h1 := wfB_enc_round (ks 1) _ (hk 1) h0
  have h2 := wfB_enc_round (ks 2) _ (hk 2) h1
  have h3 := wfB_enc_round (ks 3) _ (hk 3) h2
  have h4 := wfB_enc_round (ks 4) _ (hk 4) h3
  have h5 := wfB_enc_round (ks 5) _ (hk 5) h4
  have h6 := wfB_enc_round (ks 6) _ (hk 6) h5
  have h7 := wfB_enc_round (ks 7) _ (hk 7) h6
  have h8 := wfB_enc_round (ks 8) _ (hk 8) h7
  have h9 := wfB_enc_round (ks 9) _ (hk 9) h8
  simp only [encrypt_block?, encrypt_block, enc_round?_some _ _ h0, Option.some_bind,
    enc_round?_some _ _ h1, enc_round?_some _ _ h2, enc_round?_some _ _ h3,
    enc_round?_some _ _ h4, enc_round?_some _ _ h5, enc_round?_some _ _ h6,
    enc_round?_some _ _ h7, enc_round?_some _ _ h8, sub_bytes?_some _ h9]

/-- decrypt_block never reaches a panic on well-formed inputs. -/
theorem decrypt_block?_some (ks : Nat → Blk) (hk : ∀ n, wfB (ks n)) (b : Blk) (hb : wfB b) :
    decrypt_block? ks b = some (decrypt_block ks b) := by
  have g10 : wfB (add_round_key (ks 10) b) := wfB_ark _ _ (hk 10) hb
  have gs : wfB (inv_sub_bytes (inv_shift_rows (add_round_key (ks 10) b))) :=
    wfB_invsub _ (wfB_invshift _ g10)
  have d9 := wfB_dec_round (ks 9) _ (hk 9) gs
  have d8 := wfB_dec_round (ks 8) _ (hk 8) d9
  have d7 := wfB_dec_round (ks 7) _ (hk 7) d8
  have d6 := wfB_dec_round (ks 6) _ (hk 6) d7
  have d5 := wfB_dec_round (ks 5) _ (hk 5) d6
  have d4 := wfB_dec_round (ks 4) _ (hk 4) d5
  have d3 := wfB_dec_round (ks 3) _ (hk 3) d4
  have d2 := wfB_dec_round (ks 2) _ (hk 2) d3
  simp only [decrypt_block?, decrypt_block, inv_sub_bytes?_some _ (wfB_invshift _ g10),
    Option.some_bind, dec_round?_some _ _ (hk 9) gs, dec_round?_some _ _ (hk 8) d9,
    dec_round?_some _ _ (hk 7) d8, dec_round?_some _ _ (hk 6) d7,
    dec_round?_some _ _ (hk 5) d6, dec_round?_some _ _ (hk 4) d5,
    dec_round?_some _ _ (hk 3) d4, dec_round?_some _ _ (hk 2) d3,
    dec_round?_some _ _ (hk 1) (wfB_dec_round (ks 2) _ (hk 2) d3)]

theorem next_round_key?_some (prev : Blk) (r : Nat) (hp : wfB prev) (hr : r < 22) :
    next_round_key? prev r = some (next_round_key prev r) := by
  obtain ⟨hp0, hp1, hp2, ⟨p30, p31, p32, p33⟩⟩ := hp
  simp only [next_round_key?, next_round_key, lookup?_some _ p31, lookup?_some _ p32,
    lookup?_some _ p33, lookup?_some _ p30, round_constant?_some _ hr]

/-- Key expansion never reaches a panic on a well-formed key, through every
round the cipher uses. -/
theorem expand_key?_some (key : List Nat) (hk : wfL key) :
    ∀ n, n ≤ 10 → expand_key? key n = some (expand_key key n) := by
  intro n
  induction n with
  | zero => intro _; rfl
  | succ n ih =>
    intro hn
    simp only [expand_key?, expand_key, ih (by omega), Option.some_bind,
      next_round_key?_some _ n (wf_expand_key key hk n) (by omega)]

theorem mapOpt_some (f : Blk → Option Blk) (g : Blk → Blk) :
    ∀ bs : List Blk, (∀ b ∈ bs, f b = some (g b)) → mapOpt f bs = some (bs.map g) := by
  intro bs
  induction bs with
  | nil => intro _; rfl
  | cons b bs ih =>
    intro h
    simp only [mapOpt, h b (by simp), ih (fun x hx => h x (by simp [hx])), List.map_cons]

/-- The byte-level encrypt never reaches a panic on well-formed inputs. -/
theorem encrypt_bytes?_some (ks : Nat → Blk) (hk : ∀ n, wfB (ks n)) (msg : List Nat)
    (hm : wfL msg) : encrypt_bytes? ks msg = some (encrypt_bytes ks msg) := by
  unfold encrypt_bytes? encrypt_bytes
  rw [mapOpt_some _ (encrypt_block ks) _ (fun b hb => encrypt_block?_some ks hk b
    (wfB_make_blocks (pad msg).length (pad msg) rfl (wfL_pad msg hm) b hb))]
  rfl

/-- The byte-level decrypt never reaches a panic on well-formed inputs. -/
theorem decrypt_bytes?_some (ks : Nat → Blk) (hk : ∀ n, wfB (ks n)) (ct : List Nat)
    (hc : wfL ct) : decrypt_bytes? ks ct = some (decrypt_bytes ks ct) := by
  unfold decrypt_bytes? decrypt_bytes
  rw [mapOpt_some _ (decrypt_block ks) _ (fun b hb => decrypt_block?_some ks hk b
    (wfB_make_blocks ct.length ct rfl hc b hb))]
  rfl

/-- C1: for the key schedule expanded from the 16-byte key
000102030405060708090a0b0c0d0e0f, applying encrypt_block to the plaintext
block 00112233445566778899aabbccddeeff loaded in make_blocks order yields
exactly the FIPS-197 ciphertext block 69c4e0d86a7b0430d8cdb78070b4c55a
(output read back in the same byte order). -/
theorem fips_known_answer :
    block_bytes (encrypt_block
      (expand_key [0x00, 0x01, 0x02, 0x03, 0x04, 0x05, 0x06, 0x07,
        0x08, 0x09, 0x0a, 0x0b, 0x0c, 0x0d, 0x0e, 0x0f])
      (mkBlock [0x00, 0x11, 0x22, 0x33, 0x44, 0x55, 0x66, 0x77,
        0x88, 0x99, 0xaa, 0xbb, 0xcc, 0xdd, 0xee, 0xff]))
    = [0x69, 0xc4, 0xe0, 0xd8, 0x6a, 0x7b, 0x04, 0x30,
       0xd8, 0xcd, 0xb7, 0x80, 0x70, 0xb4, 0xc5, 0x5a] := by decide

/-- C2: for every 4x4 byte state and every key schedule derived from a
16-byte key, decrypt_block of encrypt_block is the identity. -/
theorem decrypt_block_encrypt_block (key : List Nat) (_hlen : key.length = 16)
    (hk : wfL key) (b : Blk) (hb : wfB b) :
    decrypt_block (expand_key key) (encrypt_block (expand_key key) b) = b :=
  decrypt_encrypt_block_wf (expand_key key) (wf_expand_key key hk) b hb

/-- Witness for C2 at the all-zero key and a concrete state. -/
theorem decrypt_block_encrypt_block_witness :
    decrypt_block (expand_key (List.replicate 16 0))
      (encrypt_block (expand_key (List.replicate 16 0)) (mkBlock [1, 2, 3]))
    = mkBlock [1, 2, 3] :=
  decrypt_block_encrypt_block (List.replicate 16 0) (by decide) (by decide) _ (by decide)

/-- C3: for every message whose bytes avoid the padding marker 0x80, every
16-byte key, and every transport encoding pair that round-trips, decrypt of
encrypt recovers the message exactly. -/
theorem roundtrip_no_marker {T : Type} (enc : List Nat → T) (dec : T → Option (List Nat))
    (hT : ∀ l, dec (enc l) = some l) (key : List Nat) (_hlen : key.length = 16)
    (hk : wfL key) (msg : List Nat) (hm : wfL msg) (hmark : 0x80 ∉ msg) :
    decrypt dec (expand_key key) (encrypt enc (expand_key key) msg) = some msg := by
  unfold encrypt decrypt
  rw [hT]
  simp only [Option.map_some']
  rw [decrypt_bytes_encrypt_bytes _ (wf_expand_key key hk) msg hm, pad_eq,
    depad_append_marker msg _ hmark]

/-- Witness for C3 with the identity transport, the all-zero key and a
two-byte message. -/
theorem roundtrip_no_marker_witness :
    decrypt some (expand_key (List.replicate 16 0))
      (encrypt id (expand_key (List.replicate 16 0)) [104, 105]) = some [104, 105] :=
  roundtrip_no_marker id some (fun _ => rfl) (List.replicate 16 0) (by decide) (by decide)
    [104, 105] (by decide) (by decide)

/-- C4: the key schedule is exactly the Rijndael expansion: round 0 holds the
four key columns in order; word 0 of round r+1 is word 0 of round r XORed
with the substituted left-rotation of the last word of round r whose first
byte is additionally XORed with round constant r; every later word is the
previous word of the same round XORed with the same word of the previous
round. -/
theorem key_schedule_rijndael (key : List Nat) (r : Nat) :
    ((expand_key key 0).c0 = ⟨key.getD 0 0, key.getD 1 0, key.getD 2 0, key.getD 3 0⟩
      ∧ (expand_key key 0).c1 = ⟨key.getD 4 0, key.getD 5 0, key.getD 6 0, key.getD 7 0⟩
      ∧ (expand_key key 0).c2 = ⟨key.getD 8 0, key.getD 9 0, key.getD 10 0, key.getD 11 0⟩
      ∧ (expand_key key 0).c3 = ⟨key.getD 12 0, key.getD 13 0, key.getD 14 0, key.getD 15 0⟩)
    ∧ (expand_key key (r + 1)).c0
        = xorW ((expand_key key r).c0) (rcon_adjust r (sub_word (rot_word (expand_key key r).c3)))
    ∧ (expand_key key (r + 1)).c1 = xorW ((expand_key key (r + 1)).c0) ((expand_key key r).c1)
    ∧ (expand_key key (r + 1)).c2 = xorW ((expand_key key (r + 1)).c1) ((expand_key key r).c2)
    ∧ (expand_key key (r + 1)).c3 = xorW ((expand_key key (r + 1)).c2) ((expand_key key r).c3) :=
  ⟨⟨rfl, rfl, rfl, rfl⟩, rfl, rfl, rfl, rfl⟩

/-- C5: gmul by 1 is the identity, and for every supported multiplicand the
table row agrees with the reference GF(2^8) product under the AES reduction
polynomial. -/
theorem gmul_spec :
    (∀ m, gmul 1 m = m)
    ∧ (∀ n ∈ [2, 3, 9, 11, 13, 14], ∀ m, m < 256 → gmul n m = gmulRef n m) := by
  constructor
  · intro m
    rfl
  · intro n hn m hm
    exact gmul_eq_gmulRef n (List.mem_cons_of_mem 1 hn) m hm

/-- Witness for C5 at concrete bytes. -/
theorem gmul_spec_witness : gmul 1 200 = 200 ∧ gmul 2 200 = gmulRef 2 200 :=
  ⟨gmul_spec.1 200, gmul_spec.2 2 (by decide) 200 (by decide)⟩

/-- C6: no external input can trigger a panic: on every u8-valued key, message
and ciphertext, the Option-valued pipeline (none exactly on the panic arms of
lookup, reverse_lookup, round_constant, table_index and gmul) agrees with the
total pipeline, for the key expansion through every round used, for encrypt
and for decrypt. -/
theorem no_panic (key msg ct : List Nat) (hk : wfL key) (hm : wfL msg) (hc : wfL ct) :
    (∀ n, n ≤ 10 → expand_key? key n = some (expand_key key n))
    ∧ encrypt_bytes? (expand_key key) msg = some (encrypt_bytes (expand_key key) msg)
    ∧ decrypt_bytes? (expand_key key) ct = some (decrypt_bytes (expand_key key) ct) :=
  ⟨expand_key?_some key hk, encrypt_bytes?_some _ (wf_expand_key key hk) msg hm,
   decrypt_bytes?_some _ (wf_expand_key key hk) ct hc⟩

/-- Witness for C6 at the all-zero key, a two-byte message and a one-block
ciphertext. -/
theorem no_panic_witness :
    expand_key? (List.replicate 16 0) 10 = some (expand_key (List.replicate 16 0) 10)
    ∧ encrypt_bytes? (expand_key (List.replicate 16 0)) [104, 105]
        = some (encrypt_bytes (expand_key (List.replicate 16 0)) [104, 105])
    ∧ decrypt_bytes? (expand_key (List.replicate 16 0)) (List.replicate 16 0)
        = some (decrypt_bytes (expand_key (List.replicate 16 0)) (List.replicate 16 0)) := by
  have h := no_panic (List.replicate 16 0) [104, 105] (List.replicate 16 0)
    (by decide) (by decide) (by decide)
  exact ⟨h.1 10 (by omega), h.2.1, h.2.2⟩

/-- C7: construction succeeds exactly on 16-byte keys, and fails with the
invalid-key-length error on every other length. -/
theorem key_length_validation (key : List Nat) :
    ((∃ a, AESteve_new key = Except.ok a) ↔ key.length = 16)
    ∧ (key.length ≠ 16 → AESteve_new key = Except.error AESError.invalidKeyLength) := by
  refine ⟨⟨?_, ?_⟩, ?_⟩
  · rintro ⟨a, ha⟩
    by_contra h
    simp [AESteve_new, h] at ha
  · intro h
    exact ⟨⟨expand_key key⟩, by simp [AESteve_new, h]⟩
  · intro h
    simp [AESteve_new, h]

/-- Witness for C7 at lengths 0, 15, 17, 32 and 16. -/
theorem key_length_validation_witness :
    AESteve_new (List.replicate 0 0) = Except.error AESError.invalidKeyLength
    ∧ AESteve_new (List.replicate 15 0) = Except.error AESError.invalidKeyLength
    ∧ AESteve_new (List.replicate 17 0) = Except.error AESError.invalidKeyLength
    ∧ AESteve_new (List.replicate 32 0) = Except.error AESError.invalidKeyLength
    ∧ ∃ a, AESteve_new (List.replicate 16 0) = Except.ok a :=
  ⟨(key_length_validation _).2 (by decide), (key_length_validation _).2 (by decide),
   (key_length_validation _).2 (by decide), (key_length_validation _).2 (by decide),
   ((key_length_validation _).1).mpr (by decide)⟩

/-- C8 counterexample: decrypt does not reject inputs whose decoded length is
not a multiple of 16.  A 17-byte decoded input (one ciphertext block plus one
stray byte) is processed normally; here it even completes a successful round
trip. -/
theorem decrypt_length_counterexample :
    (encrypt_bytes (expand_key (List.replicate 16 0)) [104, 105] ++ [0]).length % 16 = 1
    ∧ decrypt (fun l => some l) (expand_key (List.replicate 16 0))
        (encrypt_bytes (expand_key (List.replicate 16 0)) [104, 105] ++ [0])
      = some [104, 105] := by
  have hk : ∀ n, wfB (expand_key (List.replicate 16 0) n) := wf_expand_key _ (by decide)
  have hdec : decrypt_bytes (expand_key (List.replicate 16 0))
      (encrypt_bytes (expand_key (List.replicate 16 0)) [104, 105] ++ [0]) = [104, 105] := by
    have henc : encrypt_bytes (expand_key (List.replicate 16 0)) [104, 105]
        = block_bytes (encrypt_block (expand_key (List.replicate 16 0))
            (mkBlock (pad [104, 105]))) := by
      unfold encrypt_bytes
      rw [show make_blocks (pad [104, 105]) = [mkBlock (pad [104, 105])] from by decide]
      simp [join_blocks]
    rw [henc]
    unfold decrypt_bytes
    rw [make_blocks_eq]
    rw [if_neg (by simp [block_bytes])]
    rw [List.take_left' (show (block_bytes (encrypt_block (expand_key (List.replicate 16 0))
          (mkBlock (pad [104, 105])))).length = 16 from rfl),
      List.drop_left' (show (block_bytes (encrypt_block (expand_key (List.replicate 16 0))
          (mkBlock (pad [104, 105])))).length = 16 from rfl)]
    rw [mkBlock_block_bytes]
    rw [show make_blocks [0] = [mkBlock [0]] from by decide]
    simp only [List.map_cons, List.map_nil]
    rw [decrypt_encrypt_block_wf _ hk _ (by decide)]
    rw [show join_blocks [mkBlock (pad [104, 105]),
        decrypt_block (expand_key (List.replicate 16 0)) (mkBlock [0])]
      = block_bytes (mkBlock (pad [104, 105]))
        ++ (block_bytes (decrypt_block (expand_key (List.replicate 16 0)) (mkBlock [0])) ++ [])
      from rfl]
    rw [show block_bytes (mkBlock (pad [104, 105]))
        = [104, 105] ++ 0x80 :: List.replicate 13 0 from by decide]
    rw [List.append_assoc, List.cons_append]
    exact depad_append_marker [104, 105] _ (by decide)
  constructor
  · rw [List.length_append, encrypt_bytes_length]
    norm_num
  · unfold decrypt
    simp only [Option.map_some']
    rw [hdec]

/-- C8 amended: decrypt enforces no length requirement; make_blocks zero-pads
the trailing partial chunk to a full block, so decrypting any decoded input is
the same as decrypting its zero-extension to the next multiple of 16. -/
theorem decrypt_zero_extends (ks : Nat → Blk) (d : List Nat) :
    decrypt_bytes ks (d ++ List.replicate ((16 - d.length % 16) % 16) 0)
      = decrypt_bytes ks d := by
  unfold decrypt_bytes
  rw [make_blocks_append_zeros d.length d rfl]

/-- C9: depad returns marker-free inputs unchanged and otherwise truncates
strictly before the first 0x80 byte; consequently a plaintext containing a
literal 0x80 byte round-trips to only its prefix before that byte. -/
theorem depad_first_marker_spec :
    (∀ l : List Nat, 0x80 ∉ l → depad l = l)
    ∧ (∀ pre post : List Nat, 0x80 ∉ pre → depad (pre ++ 0x80 :: post) = pre)
    ∧ (∀ key pre post : List Nat, key.length = 16 → wfL key → wfL (pre ++ 0x80 :: post) →
        0x80 ∉ pre →
        decrypt_bytes (expand_key key)
          (encrypt_bytes (expand_key key) (pre ++ 0x80 :: post)) = pre) := by
  refine ⟨depad_no_marker, depad_append_marker, ?_⟩
  intro key pre post _hlen hk hwf hpre
  rw [decrypt_bytes_encrypt_bytes _ (wf_expand_key key hk) _ hwf, pad_eq, List.append_assoc,
    List.cons_append, depad_append_marker pre _ hpre]

/-- Witness for C9: a message with an embedded 0x80 round-trips to its strict
prefix. -/
theorem depad_first_marker_spec_witness :
    depad [104, 105] = [104, 105]
    ∧ depad ([104] ++ 0x80 :: [105]) = [104]
    ∧ decrypt_bytes (expand_key (List.replicate 16 0))
        (encrypt_bytes (expand_key (List.replicate 16 0)) ([104] ++ 0x80 :: [105])) = [104] :=
  ⟨depad_first_marker_spec.1 [104, 105] (by decide),
   depad_first_marker_spec.2.1 [104] [105] (by decide),
   depad_first_marker_spec.2.2 (List.replicate 16 0) [104] [105] (by decide) (by decide)
     (by decide) (by decide)⟩

/-- C10: encrypt always succeeds (its Option-valued pipeline returns some) and
the ciphertext bytes handed to the transport encoder number exactly
16 * ceil((L+1)/16), the smallest multiple of 16 strictly above the message
length L, so at least one padding byte is appended and ciphertext is never the
length of the plaintext. -/
theorem encrypt_length_spec (key msg : List Nat) (hk : wfL key) (hm : wfL msg) :
    encrypt_bytes? (expand_key key) msg = some (encrypt_bytes (expand_key key) msg)
    ∧ (encrypt_bytes (expand_key key) msg).length = 16 * ((msg.length + 1 + 15) / 16)
    ∧ msg.length < (encrypt_bytes (expand_key key) msg).length := by
  refine ⟨encrypt_bytes?_some _ (wf_expand_key key hk) msg hm, encrypt_bytes_length _ msg, ?_⟩
  rw [encrypt_bytes_length]
  omega

/-- Witness for C10 at the all-zero key and a two-byte message. -/
theorem encrypt_length_spec_witness :
    encrypt_bytes? (expand_key (List.replicate 16 0)) [104, 105]
      = some (encrypt_bytes (expand_key (List.replicate 16 0)) [104, 105])
    ∧ (encrypt_bytes (expand_key (List.replicate 16 0)) [104, 105]).length
      = 16 * ((([104, 105] : List Nat).length + 1 + 15) / 16)
    ∧ ([104, 105] : List Nat).length
      < (encrypt_bytes (expand_key (List.replicate 16 0)) [104, 105]).length := by
  have h := encrypt_length_spec (List.replicate 16 0) [104, 105] (by decide) (by decide)
  exact ⟨h.1, h.2.1, h.2.2⟩
